import Mathlib

/-!
Verification of the CD-List browser-extension micro-components.

Each component exposes a `DataCollector` (URL/DOM classification) and a `Run`
(action building).  The JavaScript sources are embedded shallowly:

* JS strings are `String` (lists of characters via `String.data`);
* the JS regular-expression matches used by the components
  (`/[?&]v=([^&]+)/`, `/youtu\.be\/([^?&]+)/`, `/vimeo\.com\/(\d+)/`, ...)
  are embedded as explicit left-to-right scans (`matchVParam`, `matchCapture`);
* `String.prototype.includes` is embedded as `occursIn`;
* the browser's WHATWG `new URL(u)` constructor (a platform builtin, not part
  of the repository) is modelled by `parseUrlRec`, restricted to simple
  absolute URLs `scheme://host/path?query`: it returns `none` exactly when the
  constructor would throw;
* network requests are modelled by passing the response (or its failure) as an
  explicit argument to the embedded `Run`;
* JS exceptions never escape the embedded functions (they are total), which is
  how "never throws" is expressed;
* JS truthiness tests on optional strings (`if (x)`) are embedded by
  `jsTruthy` (`undefined`/`null`/`''` are falsy).
-/

/-! ### Character-list scanning primitives (embedding of JS string/regexp ops) -/

/-- Embedding of `String.prototype.includes(needle)`: does `needle` occur as a
contiguous substring? -/
def occursIn (needle : List Char) : List Char → Bool
  | [] => needle.isEmpty
  | c :: rest => needle.isPrefixOf (c :: rest) || occursIn needle rest

/-- Embedding of a JS regexp of the shape `/marker(CAP+)/` where `CAP` is a
character class given by `keep`: scan left to right for the first occurrence
of `marker` followed by a nonempty run of `keep` characters, and return that
run (the regexp engine moves on when the capture would be empty). -/
def matchCapture (marker : List Char) (keep : Char → Bool) : List Char → Option (List Char)
  | [] => none
  | c :: rest =>
    if marker.isPrefixOf (c :: rest) then
      let cap := ((c :: rest).drop marker.length).takeWhile keep
      if cap.isEmpty then matchCapture marker keep rest else some cap
    else matchCapture marker keep rest

/-- Embedding of `/[?&]v=([^&]+)/`: first `?v=` or `&v=` followed by a
nonempty run of non-`&` characters. -/
def matchVParam : List Char → Option (List Char)
  | [] => none
  | c :: rest =>
    if (c == '?' || c == '&') && ("v=".data.isPrefixOf rest) then
      let cap := (rest.drop 2).takeWhile (fun d => d != '&')
      if cap.isEmpty then matchVParam rest else some cap
    else matchVParam rest

/-- Suffix of the list after the last occurrence of `'/'` (the last segment of
`path.split('/')` in JS); the whole list when there is no `'/'`. -/
def afterLastSlash : List Char → List Char
  | [] => []
  | c :: rest =>
    if rest.contains '/' then afterLastSlash rest
    else if c = '/' then rest else c :: rest

/-- Suffix of the list after the last occurrence of `ch`; the whole list when
`ch` does not occur. -/
def afterLastOcc (ch : Char) : List Char → List Char
  | [] => []
  | c :: rest =>
    if rest.contains ch then afterLastOcc ch rest
    else if c = ch then rest else c :: rest

/-- The suffix of the list starting at the last `'.'` (JS
`path.substring(path.lastIndexOf('.'))`), or `none` when there is no `'.'`. -/
def extAfterLastDot : List Char → Option (List Char)
  | [] => none
  | c :: rest =>
    match extAfterLastDot rest with
    | some e => some e
    | none => if c = '.' then some (c :: rest) else none

/-- Split at the first occurrence of `needle`: `some (before, after)`. -/
def splitFirst (needle : List Char) : List Char → Option (List Char × List Char)
  | [] => none
  | c :: rest =>
    if needle.isPrefixOf (c :: rest) then some ([], (c :: rest).drop needle.length)
    else
      match splitFirst needle rest with
      | some (pre, post) => some (c :: pre, post)
      | none => none

/-- JS truthiness of an optional string: `undefined`, `null` and `''` are
falsy, every other string is truthy. -/
def jsTruthy : Option String → Bool
  | none => false
  | some s => !(s == "")

/-- JS `a || b` on optional strings (used for `playability.reason || playability.status`). -/
def jsOrOpt (a b : Option String) : Option String :=
  if jsTruthy a then a else b

/-- JS string coercion of a possibly-`undefined` value (string concatenation
renders `undefined` as `"undefined"`). -/
def jsToStr : Option String → String
  | none => "undefined"
  | some s => s

/-! ### Model of the WHATWG `new URL` builtin (platform, not repository code)

Restricted to simple absolute URLs: `scheme://[user@]host[:port][/path][?query][#frag]`
with an alphabetic scheme.  `none` models the constructor throwing. -/

structure UrlRec where
  hostname : String
  pathname : String
deriving DecidableEq, Repr

def parseUrlRec (url : List Char) : Option UrlRec :=
  match splitFirst "://".data url with
  | none => none
  | some (scheme, rest) =>
    if scheme.isEmpty || !(scheme.all Char.isAlpha) then none
    else
      let auth := rest.takeWhile (fun c => !(c == '/' || c == '?' || c == '#'))
      let host := (afterLastOcc '@' auth).takeWhile (fun c => c != ':')
      let tail0 := rest.dropWhile (fun c => !(c == '/' || c == '?' || c == '#'))
      let path :=
        if tail0.head? = some '/' then tail0.takeWhile (fun c => !(c == '?' || c == '#'))
        else ['/']
      some { hostname := String.mk (host.map Char.toLower), pathname := String.mk path }

/-! ### Shared result records -/

/-- A `{url, filename, saveAs}` download descriptor. -/
structure DownloadSpec where
  url : String
  filename : String
  saveAs : Bool
deriving DecidableEq, Repr

/-- The `source` object of a `convert_to_mp3` action. -/
structure SourceSpec where
  url : String
  type : String
  extension : String
  filename : String
deriving DecidableEq, Repr

/-- The `fallback` object of a `convert_to_mp3` action. -/
structure FallbackSpec where
  action : String
  download : DownloadSpec
  message : String
deriving DecidableEq, Repr

/-- The `ActionResult` object returned by every `Run`; fields a given component
does not set are `none` (JS: absent). -/
structure RunResult where
  success : Bool
  action : Option String := none
  download : Option DownloadSpec := none
  error : Option String := none
  message : Option String := none
  note : Option String := none
  ytdlpCommand : Option String := none
  availableFormats : Option Nat := none
  source : Option SourceSpec := none
  outputFilename : Option String := none
  fallback : Option FallbackSpec := none
  videoId : Option String := none
  platform : Option String := none
  pageUrl : Option String := none
  thumbnailUrl : Option String := none
  quality : Option String := none
  allThumbnails : Option Nat := none
deriving DecidableEq, Repr

/-- A candidate media resource (`{url, filename, type, extension, source}`). -/
structure Candidate where
  url : String
  filename : String
  type : String
  extension : String
  source : String
deriving DecidableEq, Repr

/-! ### media-downloader/index.js (variant 1)

`MEDIA_EXTENSIONS` and the `getExtension` / `getFilename` / `classifyUrl`
helpers (`src/media-downloader/index.js` lines 11-64).  The `Date.now()`
timestamp field is wall-clock input ignored by every `Run` and is not
modelled. -/

def MD1_audioExts : List String := [".mp3", ".m4a", ".ogg", ".wav", ".flac", ".aac", ".wma"]
def MD1_videoExts : List String := [".mp4", ".webm", ".mkv", ".avi", ".mov"]
def MD1_streamExts : List String := [".m3u8", ".mpd"]

/-- `getExtension` (lines 36-44): lowercased pathname suffix from the last
`'.'`, provided that dot is not at index 0; `''` on parse failure. -/
def getExtensionJs (url : String) : String :=
  match parseUrlRec url.data with
  | none => ""
  | some r =>
    match r.pathname.data.map Char.toLower with
    | [] => ""
    | _ :: rest =>
      match extAfterLastDot rest with
      | some e => String.mk e
      | none => ""

/-- `getFilename` (lines 47-55): last `'/'`-segment of the pathname, truncated
at `'?'`, with `'media'` for the empty segment or on parse failure. -/
def getFilenameJs (url : String) : String :=
  match parseUrlRec url.data with
  | none => "media"
  | some r =>
    let name := (afterLastSlash r.pathname.data).takeWhile (fun c => c != '?')
    if name.isEmpty then "media" else String.mk name

/-- `classifyUrl` (lines 57-64) against a given extension table. -/
def classifyUrlJs (audio video stream : List String) (url : String) : Option String :=
  let ext := getExtensionJs url
  if audio.contains ext then some "audio"
  else if video.contains ext then some "video"
  else if stream.contains ext then some "stream"
  else none

/-- The collector result of media-downloader variant 1. -/
structure MD1Result where
  pageUrl : String
  candidates : List Candidate
  inputMode : Option String := none
  message : String := ""
  error : Option String := none
deriving DecidableEq, Repr

def joinComma : List String → String
  | [] => ""
  | [s] => s
  | s :: rest => s ++ ", " ++ joinComma rest

/-- Embedding of JS `str.replace(pat, rep)` with a string pattern: replace the
first occurrence only. -/
def replaceFirstStr (s pat rep : String) : String :=
  match splitFirst pat.data s.data with
  | none => s
  | some (pre, post) => String.mk (pre ++ rep.data ++ post)

def MD1_drmSites : List String :=
  ["netflix.com", "hulu.com", "disneyplus.com", "primevideo.com", "spotify.com"]

/-- `DataCollector` of `src/media-downloader/index.js` (lines 21-115). -/
def MD1_DataCollector (currentUrl : String) : MD1Result :=
  if currentUrl == "" then
    { pageUrl := "", candidates := [], error := some "No URL provided." }
  else
    let currentExt := getExtensionJs currentUrl
    let currentType := classifyUrlJs MD1_audioExts MD1_videoExts MD1_streamExts currentUrl
    if currentType = some "stream" then
      { pageUrl := currentUrl, candidates := [],
        error := some "This is a streaming manifest (.m3u8/.mpd). Cannot download directly - these are segmented streams that require special handling." }
    else
      match currentType with
      | some t =>
        { pageUrl := currentUrl,
          candidates := [{ url := currentUrl, filename := getFilenameJs currentUrl,
                           type := t, extension := currentExt, source := "direct-url" }],
          inputMode := some "direct-url",
          message := "Direct media URL detected: " ++
            replaceFirstStr (String.mk (currentExt.data.map Char.toUpper)) "." "" }
      | none =>
        if occursIn "youtube.com/watch".data currentUrl.data ||
            occursIn "youtu.be/".data currentUrl.data then
          { pageUrl := currentUrl, candidates := [],
            error := some "YouTube uses encrypted adaptive streaming (DASH). Direct media URLs are not accessible. Use a dedicated YouTube downloader service." }
        else
          match MD1_drmSites.find? (fun s => occursIn s.data currentUrl.data) with
          | some site =>
            { pageUrl := currentUrl, candidates := [],
              error := some ("This site (" ++ site ++ ") uses DRM-protected streaming. Content cannot be downloaded.") }
          | none =>
            { pageUrl := currentUrl, candidates := [], inputMode := some "manual",
              message := "No direct media URL detected. To download media:\n1. Find the direct media file URL (right-click media â†’ Copy video/audio URL)\n2. Navigate directly to that URL\n3. Run Get Data again\n\nSupported formats: " ++
                joinComma (MD1_audioExts ++ MD1_videoExts) }

/-- `Run` of `src/media-downloader/index.js` (lines 121-231); `data` is
`none` when the host passes `undefined`. -/
def MD1_Run (data : Option MD1Result) : RunResult :=
  match data with
  | none => { success := false, error := some "No data collected. Click \"Get Data\" first." }
  | some d =>
    if jsTruthy d.error then { success := false, error := d.error }
    else
      match d.candidates with
      | [] =>
        { success := false,
          error := some "No media files found. Navigate directly to a media file URL (.mp3, .mp4, etc.) and try again." }
      | media :: _ =>
        let ext := String.mk (media.extension.data.map Char.toLower)
        let filename := media.filename
        if MD1_streamExts.contains ext then
          { success := false,
            error := some "Cannot download streaming manifests (.m3u8/.mpd) directly. These are segmented streams used by sites like YouTube, Netflix, etc." }
        else if ext == ".mp3" then
          { success := true, action := some "download",
            download := some { url := media.url, filename := filename, saveAs := true },
            message := some ("Downloading MP3: " ++ filename) }
        else if MD1_audioExts.contains ext then
          { success := true, action := some "convert_to_mp3",
            source := some { url := media.url, type := "audio", extension := ext, filename := filename },
            outputFilename := some (replaceFirstStr filename ext ".mp3"),
            message := some ("Audio file detected (" ++ ext ++ "). Conversion to MP3 requested."),
            fallback := some { action := "download",
                               download := { url := media.url, filename := filename, saveAs := true },
                               message := "If conversion is not available, downloading original: " ++ filename } }
        else if MD1_videoExts.contains ext then
          { success := true, action := some "convert_to_mp3",
            source := some { url := media.url, type := "video", extension := ext, filename := filename },
            outputFilename := some (replaceFirstStr filename ext ".mp3"),
            message := some ("Video file detected (" ++ ext ++ "). Audio extraction to MP3 requested."),
            fallback := some { action := "download",
                               download := { url := media.url, filename := filename, saveAs := true },
                               message := "If conversion is not available, downloading original video: " ++ filename } }
        else
          { success := true, action := some "download",
            download := some { url := media.url, filename := filename, saveAs := true },
            message := some ("Downloading: " ++ filename) }

/-! ### src/unnamed/part_000 (media-downloader variant 2, YouTube stream scraping) -/

def MD2_audioExts : List String := [".mp3", ".m4a", ".ogg", ".wav", ".flac", ".aac", ".wma", ".opus"]
def MD2_videoExts : List String := [".mp4", ".webm", ".mkv", ".avi", ".mov"]
def MD2_streamExts : List String := [".m3u8", ".mpd"]
def MD2_drmSites : List String :=
  ["netflix.com", "hulu.com", "disneyplus.com", "primevideo.com", "spotify.com"]

/-- The `videoInfo` record built by the part_000 collector (lines 81-89 and
101-107); the shorts branch sets only the `maxres` thumbnail. -/
structure VideoInfo where
  id : String
  url : String
  thumbMaxres : String
  thumbHq : Option String := none
  thumbDefault : Option String := none
deriving DecidableEq, Repr

/-- The collector result of part_000. -/
structure MD2Result where
  pageUrl : String
  site : Option String := none
  candidates : List Candidate := []
  videoInfo : Option VideoInfo := none
  message : String := ""
  error : Option String := none
deriving DecidableEq, Repr

/-- The classification tail of part_000's `DataCollector` (lines 113-153):
direct-media / DRM / unknown, reached when no YouTube branch returned. -/
def MD2_collectRest (currentUrl : String) : MD2Result :=
  let urlType := classifyUrlJs MD2_audioExts MD2_videoExts MD2_streamExts currentUrl
  if urlType = some "stream" then
    { pageUrl := currentUrl,
      error := some "Streaming manifest detected (.m3u8/.mpd). These are segmented streams that require special handling." }
  else
    match urlType with
    | some t =>
      { pageUrl := currentUrl, site := some "direct",
        candidates := [{ url := currentUrl, filename := getFilenameJs currentUrl,
                         type := t, extension := getExtensionJs currentUrl, source := "direct-url" }],
        message := "Direct " ++ t ++ " file detected: " ++ getFilenameJs currentUrl }
    | none =>
      match MD2_drmSites.find? (fun s => occursIn s.data currentUrl.data) with
      | some _ =>
        { pageUrl := currentUrl,
          error := some "This site uses DRM protection. Content cannot be downloaded." }
      | none =>
        { pageUrl := currentUrl, site := some "unknown",
          message := "No media detected on this page.\n\nSupported:\nâ€¢ YouTube videos (youtube.com/watch?v=...)\nâ€¢ Direct media URLs (.mp4, .mp3, .webm, etc.)\n\nNot supported:\nâ€¢ Netflix, Spotify, Disney+ (DRM protected)\nâ€¢ Embedded players without direct URLs" }

/-- `DataCollector` of part_000 (lines 21-154). -/
def MD2_DataCollector (currentUrl : String) : MD2Result :=
  if currentUrl == "" then
    { pageUrl := "", error := some "No URL provided." }
  else if occursIn "youtube.com/watch".data currentUrl.data ||
      occursIn "youtu.be/".data currentUrl.data then
    let vid :=
      match matchVParam currentUrl.data with
      | some v => some v
      | none => matchCapture "youtu.be/".data (fun c => !(c == '?' || c == '&')) currentUrl.data
    match vid with
    | none =>
      { pageUrl := currentUrl, site := some "youtube",
        error := some "Could not extract YouTube video ID" }
    | some v =>
      let videoId := String.mk v
      { pageUrl := currentUrl, site := some "youtube",
        videoInfo := some
          { id := videoId,
            url := "https://www.youtube.com/watch?v=" ++ videoId,
            thumbMaxres := "https://img.youtube.com/vi/" ++ videoId ++ "/maxresdefault.jpg",
            thumbHq := some ("https://img.youtube.com/vi/" ++ videoId ++ "/hqdefault.jpg"),
            thumbDefault := some ("https://img.youtube.com/vi/" ++ videoId ++ "/default.jpg") },
        message := "YouTube video detected. Video ID: " ++ videoId ++ "\n\nClick \"Run CD\" to attempt stream extraction." }
  else if occursIn "youtube.com/shorts/".data currentUrl.data then
    match matchCapture "youtube.com/shorts/".data (fun c => !(c == '?' || c == '&')) currentUrl.data with
    | some s =>
      let shortsId := String.mk s
      { pageUrl := currentUrl, site := some "youtube",
        videoInfo := some
          { id := shortsId,
            url := "https://www.youtube.com/watch?v=" ++ shortsId,
            thumbMaxres := "https://img.youtube.com/vi/" ++ shortsId ++ "/maxresdefault.jpg" },
        message := "YouTube Short detected. Video ID: " ++ shortsId }
    | none => MD2_collectRest currentUrl
  else MD2_collectRest currentUrl

/-! #### The fetched-page model for `handleYouTube`

`handleYouTube` fetches the watch page and extracts `ytInitialPlayerResponse`
with a regex, then `JSON.parse`s it.  The network and the two extraction
stages are modelled as an explicit outcome argument; the parsed JSON blob is
modelled structurally by `PlayerResponse` (only the fields the function
reads). -/

structure Playability where
  status : Option String := none
  reason : Option String := none
deriving DecidableEq, Repr

structure VideoDetails where
  title : Option String := none
deriving DecidableEq, Repr

/-- A raw entry of `streamingData.formats` / `streamingData.adaptiveFormats`. -/
structure RawFormat where
  url : Option String := none
  qualityLabel : Option String := none
  quality : Option String := none
  audioQuality : Option String := none
  mimeType : Option String := none
  bitrate : Option Nat := none
deriving DecidableEq, Repr

structure StreamingData where
  formats : List RawFormat := []
  adaptiveFormats : List RawFormat := []
deriving DecidableEq, Repr

structure PlayerResponse where
  playabilityStatus : Option Playability := none
  videoDetails : Option VideoDetails := none
  streamingData : Option StreamingData := none
deriving DecidableEq, Repr

/-- Result of the `ytInitialPlayerResponse` regex + `JSON.parse` stage. -/
inductive PlayerExtract where
  /-- neither regex matched the page HTML -/
  | noMatch : PlayerExtract
  /-- the regex matched but `JSON.parse` threw -/
  | badJson : PlayerExtract
  | parsed : PlayerResponse → PlayerExtract
deriving DecidableEq, Repr

/-- Outcome of `fetch('https://www.youtube.com/watch?v='+id)`. -/
inductive YTFetchOutcome where
  /-- the fetch promise rejected with the given message -/
  | reject : String → YTFetchOutcome
  /-- `response.ok` was false with this HTTP status -/
  | notOk : Nat → YTFetchOutcome
  /-- page body received, extraction stage as given -/
  | ok : PlayerExtract → YTFetchOutcome
deriving DecidableEq, Repr

/-- A collected stream format (lines 254-290): entries of
`streamingData.formats` get `type: 'combined'`, entries of
`adaptiveFormats` get `'audio'`/`'video'` by MIME substring. -/
structure StreamFormat where
  url : String
  quality : String
  mimeType : String
  bitrate : Option Nat := none
  type : String
  hasAudio : Bool
  hasVideo : Bool
deriving DecidableEq, Repr

/-- JS `a || b` chain producing a string, with `'unknown'`-style default. -/
def jsOrStr (a : Option String) (b : String) : String :=
  if jsTruthy a then jsToStr a else b

/-- Format collection from the parsed player response (lines 253-290);
entries without a truthy `url` are skipped. -/
def collectFormats (p : PlayerResponse) : List StreamFormat :=
  match p.streamingData with
  | none => []
  | some sd =>
    (sd.formats.filterMap (fun f =>
      match f.url with
      | some u =>
        if u == "" then none
        else some { url := u,
                    quality := jsOrStr f.qualityLabel (jsOrStr f.quality "unknown"),
                    mimeType := jsOrStr f.mimeType "",
                    type := "combined", hasAudio := true, hasVideo := true }
      | none => none)) ++
    (sd.adaptiveFormats.filterMap (fun f =>
      match f.url with
      | some u =>
        if u == "" then none
        else
          let isAudio := jsTruthy f.mimeType && occursIn "audio".data (jsToStr f.mimeType).data
          some { url := u,
                 quality := jsOrStr f.qualityLabel (jsOrStr f.audioQuality (jsOrStr f.quality "unknown")),
                 mimeType := jsOrStr f.mimeType "",
                 bitrate := f.bitrate,
                 type := if isAudio then "audio" else "video",
                 hasAudio := isAudio, hasVideo := !isAudio }
      | none => none))

/-- The signature heuristic (line 294): a URL that contains `'signature'` or
`'&s='` requires client-side decryption. -/
def sigMarked (u : String) : Bool :=
  occursIn "signature".data u.data || occursIn "&s=".data u.data

/-- `availableFormats` (lines 292-295). -/
def availFormats (p : PlayerResponse) : List StreamFormat :=
  (collectFormats p).filter (fun f => !(f.url == "") && !(sigMarked f.url))

/-- The sanitized video title (lines 244-251): default `'youtube-' + id`,
else strip non-word characters, turn whitespace runs into `'-'`, truncate
to 50. -/
def isWordChar (c : Char) : Bool :=
  c.isAlphanum || c == '_'

def isWsChar (c : Char) : Bool :=
  c == ' ' || c == '\t' || c == '\n' || c == '\r'

/-- `replace(/\s+/g, '-')`: each maximal whitespace run becomes one `'-'`.
The flag records whether the previous character was whitespace. -/
def collapseWsAux : Bool → List Char → List Char
  | _, [] => []
  | inWs, c :: rest =>
    if isWsChar c then (if inWs then [] else ['-']) ++ collapseWsAux true rest
    else c :: collapseWsAux false rest

def ytTitle (vi : VideoInfo) (p : PlayerResponse) : String :=
  match p.videoDetails with
  | some vd =>
    match vd.title with
    | some t =>
      if t == "" then "youtube-" ++ vi.id
      else
        String.mk ((collapseWsAux false
          (t.data.filter (fun c => isWordChar c || isWsChar c || c == '-'))).take 50)
    | none => "youtube-" ++ vi.id
  | none => "youtube-" ++ vi.id

/-- The `(b.bitrate || 0) - (a.bitrate || 0)` sort key. -/
def keyB (f : StreamFormat) : Nat := f.bitrate.getD 0

/-- One insertion step of a stable descending sort by `keyB`: `f` goes after
every existing entry with a key `≥` its own. -/
def insertDesc (f : StreamFormat) : List StreamFormat → List StreamFormat
  | [] => [f]
  | g :: gs => if keyB f > keyB g then f :: g :: gs else g :: insertDesc f gs

/-- Embedding of `Array.prototype.sort` (guaranteed stable) with comparator
`(b.bitrate || 0) - (a.bitrate || 0)` (lines 316-320). -/
def sortByBitrateDesc (l : List StreamFormat) : List StreamFormat :=
  l.foldl (fun acc f => insertDesc f acc) []

/-- The thumbnail fallback returned when every format needs signature
decryption (lines 297-313). -/
def MD2_sigFallback (vi : VideoInfo) (title : String) : RunResult :=
  { success := true, action := some "download",
    download := some { url := vi.thumbMaxres, filename := title ++ "-thumbnail.jpg", saveAs := true },
    message := some ("Video streams require signature decryption (not available in browser).\n\nDownloading thumbnail instead.\n\nFor full video, use yt-dlp:\nyt-dlp -f \"bestaudio\" --extract-audio --audio-format mp3 \"https://youtube.com/watch?v=" ++ vi.id ++ "\""),
    ytdlpCommand := some ("yt-dlp -x --audio-format mp3 \"https://youtube.com/watch?v=" ++ vi.id ++ "\"") }

/-- Format selection and download-action construction (lines 292-374). -/
def ytSelectAndBuild (vi : VideoInfo) (p : PlayerResponse) : RunResult :=
  let title := ytTitle vi p
  match availFormats p with
  | [] => MD2_sigFallback vi title
  | a0 :: rest0 =>
    match sortByBitrateDesc ((availFormats p).filter (fun f => f.type == "audio")) with
    | bestAudio :: _ =>
      let ext := if occursIn "mp4".data bestAudio.mimeType.data then ".m4a" else ".webm"
      { success := true, action := some "download",
        download := some { url := bestAudio.url, filename := title ++ ext, saveAs := true },
        message := some ("Downloading audio: " ++ title ++ ext ++ "\n\nQuality: " ++ bestAudio.quality),
        availableFormats := some (a0 :: rest0).length,
        note := some ("To convert to MP3, use: ffmpeg -i \"" ++ title ++ ext ++ "\" \"" ++ title ++ ".mp3\"") }
    | [] =>
      match (availFormats p).filter (fun f => f.type == "combined") with
      | best :: _ =>
        { success := true, action := some "download",
          download := some { url := best.url, filename := title ++ ".mp4", saveAs := true },
          message := some ("Downloading video: " ++ title ++ ".mp4\n\nQuality: " ++ best.quality),
          availableFormats := some (a0 :: rest0).length }
      | [] =>
        { success := true, action := some "download",
          download := some { url := a0.url, filename := title ++ ".mp4", saveAs := true },
          message := some ("Downloading: " ++ title) }

/-- The `catch` clause of `handleYouTube` (lines 376-389): every thrown error
becomes a successful thumbnail download carrying the error message. -/
def MD2_catchResult (vi : VideoInfo) (emsg : String) : RunResult :=
  { success := true, action := some "download",
    download := some { url := vi.thumbMaxres,
                       filename := "youtube-" ++ vi.id ++ "-thumbnail.jpg", saveAs := true },
    message := some ("Stream extraction failed: " ++ emsg ++ "\n\nDownloading thumbnail instead.\n\nFor video download, use yt-dlp:\nyt-dlp \"https://youtube.com/watch?v=" ++ vi.id ++ "\""),
    error := some emsg }

/-- `handleYouTube` on a parsed player response (lines 234-374). -/
def handleYouTubeParsed (vi : VideoInfo) (p : PlayerResponse) : RunResult :=
  match p.playabilityStatus with
  | some pb =>
    if pb.status ≠ some "OK" then
      { success := false,
        error := some ("Video not available: " ++ jsToStr (jsOrOpt pb.reason pb.status)) }
    else ytSelectAndBuild vi p
  | none => ytSelectAndBuild vi p

/-- `handleYouTube` (lines 187-390), with the network/extraction outcome as an
explicit argument. -/
def handleYouTube (vi : VideoInfo) (outcome : YTFetchOutcome) : RunResult :=
  match outcome with
  | .reject m => MD2_catchResult vi m
  | .notOk status => MD2_catchResult vi ("Failed to fetch YouTube page: " ++ toString status)
  | .ok .badJson => MD2_catchResult vi "Failed to parse player data"
  | .ok .noMatch =>
    { success := true, action := some "download",
      download := some { url := vi.thumbMaxres,
                         filename := "youtube-" ++ vi.id ++ "-thumbnail.jpg", saveAs := true },
      message := some ("Could not extract video streams. Downloading thumbnail instead.\n\nFor full video download, use yt-dlp:\nyt-dlp \"https://youtube.com/watch?v=" ++ vi.id ++ "\""),
      note := some "YouTube stream extraction failed - page structure may have changed" }
  | .ok (.parsed p) => handleYouTubeParsed vi p

/-- `handleDirectMedia` (lines 395-406). -/
def handleDirectMedia (media : Candidate) : RunResult :=
  { success := true, action := some "download",
    download := some { url := media.url, filename := media.filename, saveAs := true },
    message := some ("Downloading: " ++ media.filename) }

/-- `Run` of part_000 (lines 159-182). -/
def MD2_Run (data : Option MD2Result) (outcome : YTFetchOutcome) : RunResult :=
  match data with
  | none => { success := false, error := some "No data. Click \"Get Data\" first." }
  | some d =>
    if jsTruthy d.error then { success := false, error := d.error }
    else if d.site = some "youtube" && d.videoInfo.isSome then
      match d.videoInfo with
      | some vi => handleYouTube vi outcome
      | none => { success := false, error := some "No downloadable media found." }
    else if d.site = some "direct" && !d.candidates.isEmpty then
      match d.candidates with
      | media :: _ => handleDirectMedia media
      | [] => { success := false, error := some "No downloadable media found." }
    else
      { success := false, error := some "No downloadable media found." }

/-! ### src/youtube-audio-downloader/index.js -/

/-- An entry of the collector's `media` array (lines 86-92). -/
structure YTAMedia where
  url : String
  videoId : String
  type : String
  format : String
  filename : String
deriving DecidableEq, Repr

/-- The collector result of the YouTube audio downloader. -/
structure YTAResult where
  platform : Option String := none
  videoId : Option String := none
  videoUrl : Option String := none
  title : Option String := none
  media : List YTAMedia := []
  message : Option String := none
  error : Option String := none
deriving DecidableEq, Repr

/-- The four-pattern YouTube video-id cascade (`watch?v=`, `youtu.be/`,
`/embed/`, `/shorts/`), shared verbatim by the youtube-audio-downloader
(lines 44-75), the thumbnail-downloader (lines 39-69) and the DOM thumbnail
variant (part_001 lines 22-52). -/
def ytIdCascade (url : String) : Option String :=
  match matchVParam url.data with
  | some v => some (String.mk v)
  | none =>
    match matchCapture "youtu.be/".data (fun c => !(c == '?' || c == '&')) url.data with
    | some v => some (String.mk v)
    | none =>
      match matchCapture "youtube.com/embed/".data (fun c => !(c == '?' || c == '&')) url.data with
      | some v => some (String.mk v)
      | none =>
        match matchCapture "youtube.com/shorts/".data (fun c => !(c == '?' || c == '&')) url.data with
        | some v => some (String.mk v)
        | none => none

/-- `DataCollector` of `src/youtube-audio-downloader/index.js` (lines 16-101). -/
def YTA_DataCollector (currentUrl : String) : YTAResult :=
  if currentUrl == "" then
    { error := some "No URL provided. Make sure you are on a YouTube video page." }
  else
    match parseUrlRec currentUrl.data with
    | none =>
      -- `new URL` threw; the platform's exception message is appended to
      -- `'Invalid URL format: '` (its exact text is runtime-dependent).
      { error := some ("Invalid URL format: " ++ "Failed to construct URL") }
    | some u =>
      if !(occursIn "youtube.com".data u.hostname.data) &&
          !(occursIn "youtu.be".data u.hostname.data) then
        { error := some ("This component only works with YouTube. Current site: " ++ u.hostname) }
      else
        match ytIdCascade currentUrl with
        | none =>
          { platform := some "YouTube",
            error := some "Could not extract video ID from YouTube URL. Make sure you are on a video page." }
        | some videoId =>
          { platform := some "YouTube",
            videoId := some videoId,
            videoUrl := some ("https://www.youtube.com/watch?v=" ++ videoId),
            media := [{ url := "https://www.youtube.com/watch?v=" ++ videoId,
                        videoId := videoId, type := "audio", format := "mp3",
                        filename := "youtube-" ++ videoId ++ ".mp3" }],
            message := some ("YouTube video detected. Video ID: " ++ videoId) }

/-- The JSON body of a cobalt-style API response (only the fields read). -/
structure CobaltBody where
  status : Option String := none
  text : Option String := none
  url : Option String := none
  filename : Option String := none
deriving DecidableEq, Repr

/-- Outcome of one `fetch` to a cobalt-style API. -/
inductive ApiOutcome where
  /-- the fetch promise rejected with the given message -/
  | reject : String → ApiOutcome
  /-- `response.ok` was false with this HTTP status -/
  | notOk : Nat → ApiOutcome
  /-- `response.json()` threw -/
  | badJson : String → ApiOutcome
  | ok : CobaltBody → ApiOutcome
deriving DecidableEq, Repr

/-- The `downloadUrl` resolution (lines 160-170): `tunnel`/`redirect`/`stream`
statuses and the bare `data.url` fallback all take `data.url`. -/
def YTA_downloadUrl (body : CobaltBody) : Option String :=
  if body.status = some "tunnel" || body.status = some "redirect" then body.url
  else if body.status = some "stream" then body.url
  else if jsTruthy body.url then body.url
  else none

/-- The filename choice (lines 162, 176-183): the API filename when truthy,
with `'.mp3'` appended unless its lowercasing already ends in `'.mp3'`;
otherwise `'youtube-' + id + '.mp3'`. -/
def YTA_filename (videoId : String) (body : CobaltBody) : String :=
  match body.filename with
  | some f =>
    if f == "" then "youtube-" ++ videoId ++ ".mp3"
    else if ".mp3".data.isSuffixOf (f.data.map Char.toLower) then f
    else f ++ ".mp3"
  | none => "youtube-" ++ videoId ++ ".mp3"

/-- The primary cobalt.tools request (lines 134-197): `Except.error` carries
the message of the exception the JS code would throw. -/
def YTA_primary (videoId : String) (r : ApiOutcome) : Except String RunResult :=
  match r with
  | .reject m => .error m
  | .notOk status => .error ("API request failed: " ++ toString status)
  | .badJson m => .error m
  | .ok body =>
    if body.status = some "error" then
      .error (jsOrStr body.text "Failed to process video")
    else
      match YTA_downloadUrl body with
      | some durl =>
        if durl == "" then .error "Could not get download URL from API response"
        else
          let filename := YTA_filename videoId body
          .ok { success := true, action := some "download",
                download := some { url := durl, filename := filename, saveAs := true },
                message := some ("Downloading audio: " ++ filename),
                videoId := some videoId, platform := some "YouTube" }
      | none => .error "Could not get download URL from API response"

/-- The co.wuk.sh fallback request (lines 200-241): `none` when it too fails
(all its own exceptions are swallowed). -/
def YTA_fallback (videoId : String) (r : ApiOutcome) : Option RunResult :=
  match r with
  | .reject _ => none
  | .notOk _ => none
  | .badJson _ => none
  | .ok body =>
    if body.status = some "error" then none
    else
      match body.url with
      | some u =>
        if u == "" then none
        else
          some { success := true, action := some "download",
                 download := some { url := u, filename := "youtube-" ++ videoId ++ ".mp3", saveAs := true },
                 message := some "Downloading audio from YouTube",
                 videoId := some videoId, platform := some "YouTube" }
      | none => none

/-- `Run` of `src/youtube-audio-downloader/index.js` (lines 107-248), with the
two API outcomes as explicit arguments. -/
def YTA_Run (collectedData : Option YTAResult) (r1 r2 : ApiOutcome) : RunResult :=
  match collectedData with
  | none =>
    { success := false,
      error := some "No data collected. Click \"Get Data\" first while on a YouTube video page." }
  | some cd =>
    if jsTruthy cd.error then { success := false, error := cd.error }
    else
      match cd.media with
      | [] =>
        { success := false, error := some "No media found. Make sure you are on a YouTube video page." }
      | _ :: _ =>
        let videoId := jsToStr cd.videoId
        match YTA_primary videoId r1 with
        | .ok res => res
        | .error emsg =>
          match YTA_fallback videoId r2 with
          | some res => res
          | none =>
            { success := false,
              error := some ("Failed to get download URL: " ++ emsg ++ ". The video may be unavailable or protected.") }

/-! ### src/thumbnail-downloader/index.js (variant 1, URL-based) -/

/-- A thumbnail entry (`{quality, resolution, url}`). -/
structure Thumb1 where
  quality : String
  resolution : String
  url : String
deriving DecidableEq, Repr

/-- The collector result of the thumbnail downloader. -/
structure TD1Result where
  platform : Option String := none
  videoId : Option String := none
  thumbnails : List Thumb1 := []
  sourceUrl : String
  message : Option String := none
  error : Option String := none
deriving DecidableEq, Repr

/-- The five fixed YouTube thumbnail templates (lines 73-99). -/
def ytThumbList (videoId : String) : List Thumb1 :=
  [ { quality := "Max Resolution", resolution := "1280x720",
      url := "https://img.youtube.com/vi/" ++ videoId ++ "/maxresdefault.jpg" },
    { quality := "SD", resolution := "640x480",
      url := "https://img.youtube.com/vi/" ++ videoId ++ "/sddefault.jpg" },
    { quality := "High Quality", resolution := "480x360",
      url := "https://img.youtube.com/vi/" ++ videoId ++ "/hqdefault.jpg" },
    { quality := "Medium Quality", resolution := "320x180",
      url := "https://img.youtube.com/vi/" ++ videoId ++ "/mqdefault.jpg" },
    { quality := "Default", resolution := "120x90",
      url := "https://img.youtube.com/vi/" ++ videoId ++ "/default.jpg" } ]

/-- `DataCollector` of `src/thumbnail-downloader/index.js` (lines 12-151). -/
def TD1_DataCollector (currentUrl : String) : TD1Result :=
  if currentUrl == "" then
    { sourceUrl := "No URL provided",
      error := some "No URL provided. Make sure you are on a video page." }
  else
    match parseUrlRec currentUrl.data with
    | none =>
      { sourceUrl := currentUrl, error := some ("Invalid URL format: " ++ currentUrl) }
    | some u =>
      if occursIn "youtube.com".data u.hostname.data ||
          occursIn "youtu.be".data u.hostname.data then
        match ytIdCascade currentUrl with
        | some videoId =>
          { platform := some "YouTube", videoId := some videoId, sourceUrl := currentUrl,
            thumbnails := ytThumbList videoId,
            message := some ("Found " ++ toString (ytThumbList videoId).length ++ " thumbnails") }
        | none =>
          { platform := some "YouTube", sourceUrl := currentUrl,
            error := some "Could not extract video ID from YouTube URL" }
      else if occursIn "vimeo.com".data u.hostname.data then
        match matchCapture "vimeo.com/".data Char.isDigit currentUrl.data with
        | some v =>
          { platform := some "Vimeo", videoId := some (String.mk v), sourceUrl := currentUrl,
            thumbnails := [{ quality := "Vimeo Thumbnail", resolution := "Variable",
                             url := "https://vumbnail.com/" ++ String.mk v ++ ".jpg" }],
            message := some "Found thumbnail for Vimeo video" }
        | none =>
          { platform := some "Vimeo", sourceUrl := currentUrl,
            error := some "Could not extract video ID from Vimeo URL" }
      else if occursIn "dailymotion.com".data u.hostname.data then
        match matchCapture "dailymotion.com/video/".data (fun c => !(c == '_' || c == '?')) currentUrl.data with
        | some v =>
          { platform := some "Dailymotion", videoId := some (String.mk v), sourceUrl := currentUrl,
            thumbnails := [{ quality := "Dailymotion Thumbnail", resolution := "Variable",
                             url := "https://www.dailymotion.com/thumbnail/video/" ++ String.mk v }],
            message := some "Found thumbnail for Dailymotion video" }
        | none =>
          { platform := some "Dailymotion", sourceUrl := currentUrl,
            error := some "Could not extract video ID from Dailymotion URL" }
      else
        { platform := some "Unsupported", sourceUrl := currentUrl,
          error := some "This website is not supported. Try YouTube, Vimeo, or Dailymotion." }

/-- `Run` of `src/thumbnail-downloader/index.js` (lines 153-197). -/
def TD1_Run (collectedData : Option TD1Result) : RunResult :=
  match collectedData with
  | none =>
    { success := false,
      error := some "No data collected. Click \"Get Data\" first while on a video page." }
  | some cd =>
    if jsTruthy cd.error then { success := false, error := cd.error }
    else
      match cd.thumbnails with
      | [] => { success := false, error := some "No thumbnails found in collected data." }
      | bestThumb :: _ =>
        let videoId := jsOrStr cd.videoId "video"
        let platform := String.mk ((jsOrStr cd.platform "unknown").data.map Char.toLower)
        { success := true, action := some "download",
          download := some { url := bestThumb.url,
                             filename := platform ++ "-" ++ videoId ++ "-thumbnail.jpg",
                             saveAs := true },
          message := some ("Downloading " ++ bestThumb.quality ++ " thumbnail (" ++ bestThumb.resolution ++ ")"),
          platform := cd.platform, videoId := cd.videoId, thumbnailUrl := some bestThumb.url }

/-! ### src/unnamed/part_001 (thumbnail downloader, DOM variant)

This variant reads `window.location` and `document` directly.  The page
environment is modelled by `DomEnv`; `window.location.hostname` is the
hostname of `href` under the URL model (empty for an unparsable href, which
cannot occur in a browser). -/

structure DomEnv where
  href : String
  title : String
  /-- content of `meta[property="og:image"]`, `none` when the tag is absent -/
  ogImage : Option String := none
  /-- content of `meta[name="twitter:image"]` -/
  twitterImage : Option String := none
  /-- the `poster` attributes of all `video[poster]` elements, in DOM order -/
  videoPosters : List String := []
deriving DecidableEq, Repr

def domHostname (dom : DomEnv) : String :=
  match parseUrlRec dom.href.data with
  | some u => u.hostname
  | none => ""

/-- A thumbnail entry of part_001 (`{quality, url, width, height}`). -/
structure Thumb2 where
  quality : String
  url : String
  width : Option Nat := none
  height : Option Nat := none
deriving DecidableEq, Repr

/-- The collector result of part_001. -/
structure TD2Result where
  platform : Option String := none
  videoId : Option String := none
  thumbnails : List Thumb2 := []
  pageUrl : String
  pageTitle : String
deriving DecidableEq, Repr

/-- The five fixed YouTube thumbnail templates of part_001 (lines 56-87). -/
def ytThumbList2 (videoId : String) : List Thumb2 :=
  [ { quality := "Max Resolution",
      url := "https://img.youtube.com/vi/" ++ videoId ++ "/maxresdefault.jpg",
      width := some 1280, height := some 720 },
    { quality := "SD",
      url := "https://img.youtube.com/vi/" ++ videoId ++ "/sddefault.jpg",
      width := some 640, height := some 480 },
    { quality := "High Quality",
      url := "https://img.youtube.com/vi/" ++ videoId ++ "/hqdefault.jpg",
      width := some 480, height := some 360 },
    { quality := "Medium Quality",
      url := "https://img.youtube.com/vi/" ++ videoId ++ "/mqdefault.jpg",
      width := some 320, height := some 180 },
    { quality := "Default",
      url := "https://img.youtube.com/vi/" ++ videoId ++ "/default.jpg",
      width := some 120, height := some 90 } ]

/-- `DataCollector` of part_001 (lines 7-168). -/
def TD2_DataCollector (dom : DomEnv) : TD2Result :=
  let url := dom.href
  let hostname := domHostname dom
  if occursIn "youtube.com".data hostname.data || occursIn "youtu.be".data hostname.data then
    match ytIdCascade url with
    | some videoId =>
      { platform := some "YouTube", videoId := some videoId,
        thumbnails := ytThumbList2 videoId, pageUrl := url, pageTitle := dom.title }
    | none =>
      { platform := some "YouTube", pageUrl := url, pageTitle := dom.title }
  else if occursIn "vimeo.com".data hostname.data then
    match matchCapture "vimeo.com/".data Char.isDigit url.data with
    | some v =>
      { platform := some "Vimeo", videoId := some (String.mk v),
        thumbnails :=
          match dom.ogImage with
          | some content =>
            if content == "" then []
            else [{ quality := "OG Image", url := content }]
          | none => [],
        pageUrl := url, pageTitle := dom.title }
    | none => { platform := some "Vimeo", pageUrl := url, pageTitle := dom.title }
  else if occursIn "dailymotion.com".data hostname.data then
    match matchCapture "dailymotion.com/video/".data (fun c => !(c == '_' || c == '?')) url.data with
    | some v =>
      { platform := some "Dailymotion", videoId := some (String.mk v),
        thumbnails := [{ quality := "Thumbnail",
                         url := "https://www.dailymotion.com/thumbnail/video/" ++ String.mk v }],
        pageUrl := url, pageTitle := dom.title }
    | none => { platform := some "Dailymotion", pageUrl := url, pageTitle := dom.title }
  else
    { platform := some "Generic",
      thumbnails :=
        (match dom.ogImage with
         | some content => if content == "" then [] else [{ quality := "OG Image", url := content : Thumb2 }]
         | none => []) ++
        (match dom.twitterImage with
         | some content => if content == "" then [] else [{ quality := "Twitter Image", url := content : Thumb2 }]
         | none => []) ++
        (dom.videoPosters.enum.filterMap (fun pi =>
          if pi.2 == "" then none
          else some ({ quality := "Video Poster " ++ toString (pi.1 + 1), url := pi.2 } : Thumb2))),
      pageUrl := url, pageTitle := dom.title }

/-- `Run` of part_001 (lines 170-218): when `data` is absent it collects
fresh data from the live page; the DOM side effects (creating an anchor,
`window.open`) do not influence the returned record and are not modelled. -/
def TD2_Run (data : Option TD2Result) (dom : DomEnv) : RunResult :=
  let thumbData := match data with | some d => d | none => TD2_DataCollector dom
  match thumbData.thumbnails with
  | [] =>
    { success := false, message := some "No thumbnails found on this page",
      platform := thumbData.platform }
  | bestThumb :: _ =>
    { success := true, message := some "Thumbnail opened in new tab",
      platform := thumbData.platform, videoId := thumbData.videoId,
      thumbnailUrl := some bestThumb.url, quality := some bestThumb.quality,
      allThumbnails := some thumbData.thumbnails.length }

/-! ### src/realtime-subtitles/index.js -/

/-- The collector result of the realtime-subtitles component. -/
structure RSResult where
  pageUrl : String
  message : String := ""
  error : Option String := none
deriving DecidableEq, Repr

/-- `DataCollector` of `src/realtime-subtitles/index.js` (lines 20-42). -/
def RS_DataCollector (currentUrl : String) : RSResult :=
  if currentUrl == "" then
    { pageUrl := "", error := some "No URL provided. Make sure you have a webpage open." }
  else
    { pageUrl := currentUrl,
      message := "Ready to start real-time subtitles.\n\nPage: " ++ currentUrl ++
        "\n\nThis will capture audio from the current tab and transcribe it using Deepgram AI (English only).\n\nRequirements:\n  - Deepgram API key (set via gear icon)\n  - Tab must be playing audio\n\nClick \"Run CD\" to start. Click again to stop." }

/-- `Run` of `src/realtime-subtitles/index.js` (lines 44-59). -/
def RS_Run (data : Option RSResult) : RunResult :=
  match data with
  | none => { success := false, error := some "No data. Click \"Get Data\" first." }
  | some d =>
    if jsTruthy d.error then { success := false, error := d.error }
    else
      { success := true, action := some "start_subtitles",
        pageUrl := some d.pageUrl, message := some "Starting real-time subtitles..." }

/-! ### Claim theorems -/

/-- A sample `videoInfo` used by concrete witnesses and counterexamples. -/
def viSample : VideoInfo :=
  { id := "dQw4w9WgXcQ",
    url := "https://www.youtube.com/watch?v=dQw4w9WgXcQ",
    thumbMaxres := "https://img.youtube.com/vi/dQw4w9WgXcQ/maxresdefault.jpg" }

/-- C8: for every parsed player response whose `playabilityStatus.status` is
present and differs from `'OK'`, part_000's YouTube runner returns a terminal
error (`success: false`) whose message carries the platform-supplied reason,
falling back to the status when no (truthy) reason is given. -/
theorem claim_C8 (vi : VideoInfo) (p : PlayerResponse) (pb : Playability) (s : String)
    (hpb : p.playabilityStatus = some pb) (hs : pb.status = some s) (hok : s ≠ "OK") :
    (handleYouTube vi (.ok (.parsed p))).success = false ∧
    (handleYouTube vi (.ok (.parsed p))).error =
      some ("Video not available: " ++
        (match pb.reason with
         | some r => if r ≠ "" then r else s
         | none => s)) := by
  have hne : pb.status ≠ some "OK" := by
    rw [hs]; intro h; exact hok (Option.some.injEq _ _ ▸ h)
  constructor
  · simp [handleYouTube, handleYouTubeParsed, hpb, hne, hs, hok]
  · simp only [handleYouTube, handleYouTubeParsed, hpb, jsOrOpt, jsTruthy, jsToStr, hs]
    simp only [ne_eq, Option.some.injEq, hok, if_neg, ite_false, not_false_iff, ite_true]
    cases hr : pb.reason with
    | none => simp
    | some r =>
      by_cases hre : r = ""
      · subst hre; simp
      · simp [hre]

theorem claim_C8_witness :
    (some { status := some "ERROR", reason := some "Private video" } : Option Playability) =
        some { status := some "ERROR", reason := some "Private video" } ∧
    (handleYouTube viSample (.ok (.parsed
      { playabilityStatus := some { status := some "ERROR", reason := some "Private video" } }))).success = false := by
  refine ⟨rfl, ?_⟩
  exact (claim_C8 viSample
    { playabilityStatus := some { status := some "ERROR", reason := some "Private video" } }
    { status := some "ERROR", reason := some "Private video" } "ERROR"
    rfl rfl (by decide)).1

/-- A player response whose only format carries a signature marker but whose
`playabilityStatus` is an error. -/
def p4cx : PlayerResponse :=
  { playabilityStatus := some { status := some "ERROR", reason := some "Video unavailable" },
    streamingData := some
      { adaptiveFormats := [{ url := some "https://example.com/stream?x=1&s=abcdef",
                              mimeType := some "audio/webm", bitrate := some 128000 }] } }

/-- C4 counterexample: a parsed player response in which every collected
format URL contains a signature marker, yet the runner returns
`success: false` (because its playability status is not `'OK'`), with no
thumbnail download and no hint command. -/
theorem claim_C4_cx :
    (collectFormats p4cx).all (fun f => sigMarked f.url) = true ∧
    (collectFormats p4cx).length = 1 ∧
    (handleYouTube viSample (.ok (.parsed p4cx))).success = false ∧
    (handleYouTube viSample (.ok (.parsed p4cx))).download = none ∧
    (handleYouTube viSample (.ok (.parsed p4cx))).ytdlpCommand = none := by
  decide

/-- C4 (amended): for every parsed player response that passes the
playability check (`playabilityStatus` absent or `'OK'`) and in which every
collected format URL contains a signature marker (`'signature'` or `'&s='`),
part_000's YouTube runner returns `success: true` with a thumbnail download
action and a `yt-dlp` hint command string. -/
theorem claim_C4_amended (vi : VideoInfo) (p : PlayerResponse)
    (hok : p.playabilityStatus = none ∨
      ∃ pb, p.playabilityStatus = some pb ∧ pb.status = some "OK")
    (hsig : ∀ f ∈ collectFormats p, sigMarked f.url = true) :
    (handleYouTube vi (.ok (.parsed p))).success = true ∧
    (handleYouTube vi (.ok (.parsed p))).action = some "download" ∧
    (handleYouTube vi (.ok (.parsed p))).download =
      some { url := vi.thumbMaxres, filename := ytTitle vi p ++ "-thumbnail.jpg", saveAs := true } ∧
    (handleYouTube vi (.ok (.parsed p))).ytdlpCommand =
      some ("yt-dlp -x --audio-format mp3 \"https://youtube.com/watch?v=" ++ vi.id ++ "\"") := by
  have havail : availFormats p = [] := by
    simp only [availFormats]
    rw [List.filter_eq_nil_iff]
    intro f hf
    simp [hsig f hf]
  have hsel : handleYouTube vi (.ok (.parsed p)) = MD2_sigFallback vi (ytTitle vi p) := by
    have hbuild : ytSelectAndBuild vi p = MD2_sigFallback vi (ytTitle vi p) := by
      simp only [ytSelectAndBuild, havail]
    rcases hok with h | ⟨pb, hpb, hst⟩
    · simp [handleYouTube, handleYouTubeParsed, h, hbuild]
    · simp [handleYouTube, handleYouTubeParsed, hpb, hst, hbuild]
  rw [hsel]
  exact ⟨rfl, rfl, rfl, rfl⟩

/-- A player response with an `'OK'` playability status and a single
signature-marked adaptive format. -/
def p4ok : PlayerResponse :=
  { playabilityStatus := some { status := some "OK" },
    streamingData := some
      { adaptiveFormats := [{ url := some "https://example.com/stream?x=1&s=abcdef",
                              mimeType := some "audio/webm", bitrate := some 128000 }] } }

theorem claim_C4_amended_witness :
    ((p4ok.playabilityStatus = none ∨
        ∃ pb, p4ok.playabilityStatus = some pb ∧ pb.status = some "OK") ∧
      ∀ f ∈ collectFormats p4ok, sigMarked f.url = true) ∧
    (handleYouTube viSample (.ok (.parsed p4ok))).success = true := by
  refine ⟨⟨Or.inr ⟨{ status := some "OK" }, rfl, rfl⟩, by decide⟩, ?_⟩
  exact (claim_C4_amended viSample p4ok
    (Or.inr ⟨{ status := some "OK" }, rfl, rfl⟩) (by decide)).1

/-- A YouTube watch page environment for part_001. -/
def domYt : DomEnv :=
  { href := "https://www.youtube.com/watch?v=dQw4w9WgXcQ", title := "Some video - YouTube" }

/-- C1 counterexample: part_001's `Run`, called with absent collected data on
a YouTube watch page, re-collects from the live page and returns
`success: true` rather than `{success: false}`. -/
theorem claim_C1_cx : (TD2_Run none domYt).success = true := by decide

/-- C1 (amended): every `Run` except part_001's returns `{success: false}`
(and, being total, never throws) when the collected data is absent; part_001's
`Run` instead re-collects fresh data from the live page, returning
`success: false` exactly when that fresh collection finds no thumbnails. -/
theorem claim_C1_amended :
    (MD1_Run none).success = false ∧
    (∀ outcome, (MD2_Run none outcome).success = false) ∧
    (∀ r1 r2, (YTA_Run none r1 r2).success = false) ∧
    (TD1_Run none).success = false ∧
    (RS_Run none).success = false ∧
    (∀ dom, (TD2_Run none dom).success = !(TD2_DataCollector dom).thumbnails.isEmpty) := by
  refine ⟨rfl, fun _ => rfl, fun _ _ => rfl, rfl, rfl, fun dom => ?_⟩
  simp only [TD2_Run]
  cases h : (TD2_DataCollector dom).thumbnails with
  | nil => simp [h]
  | cons a t => simp [h]

theorem claim_C1_amended_witness :
    (MD2_Run none (.ok .noMatch)).success = false ∧
    (YTA_Run none (.ok {}) (.ok {})).success = false ∧
    (TD2_Run none domYt).success = !(TD2_DataCollector domYt).thumbnails.isEmpty := by
  exact ⟨claim_C1_amended.2.1 (.ok .noMatch),
         claim_C1_amended.2.2.1 (.ok {}) (.ok {}),
         claim_C1_amended.2.2.2.2.2 domYt⟩

/-! ### Helper lemmas about the URL model -/

theorem takeWhile_all_eq {p : Char → Bool} {l : List Char}
    (h : ∀ c ∈ l, p c = true) : l.takeWhile p = l := by
  induction l with
  | nil => rfl
  | cons c rest ih =>
    rw [List.takeWhile_cons, if_pos (h c (List.mem_cons_self c rest))]
    rw [ih (fun d hd => h d (List.mem_cons_of_mem c hd))]

theorem afterLastSlash_suffix (l : List Char) : afterLastSlash l <:+ l := by
  induction l with
  | nil => exact List.suffix_rfl
  | cons c rest ih =>
    unfold afterLastSlash
    by_cases h : rest.contains '/'
    · simp only [h, if_true]
      exact ih.trans (List.suffix_cons c rest)
    · simp only [h, if_false]
      by_cases hc : c = '/'
      · simp only [hc, if_true]
        exact List.suffix_cons '/' rest
      · simp only [hc, if_false]
        exact List.suffix_rfl

theorem afterLastSlash_ne_nil {l : List Char} {c : Char}
    (h : l.getLast? = some c) (hc : c ≠ '/') : afterLastSlash l ≠ [] := by
  induction l with
  | nil => simp at h
  | cons a rest ih =>
    unfold afterLastSlash
    cases hr : rest with
    | nil =>
      subst hr
      simp only [List.getLast?_singleton, Option.some.injEq] at h
      subst h
      simp [hc]
    | cons b t =>
      rw [← hr]
      have hlast : rest.getLast? = some c := by
        rw [hr] at h ⊢
        simpa using h
      by_cases hcon : rest.contains '/'
      · simp only [hcon, if_true]
        exact ih hlast
      · simp only [hcon, if_false]
        by_cases ha : a = '/'
        · simp only [ha, if_true]
          rw [hr]; simp
        · simp only [ha, if_false]
          simp

theorem extAfterLastDot_spec {l e : List Char} (h : extAfterLastDot l = some e) :
    e <:+ l ∧ e ≠ [] := by
  induction l generalizing e with
  | nil => simp [extAfterLastDot] at h
  | cons c rest ih =>
    unfold extAfterLastDot at h
    cases hr : extAfterLastDot rest with
    | some e0 =>
      rw [hr] at h
      obtain ⟨hsuf, hne⟩ := ih hr
      cases h
      exact ⟨hsuf.trans (List.suffix_cons c rest), hne⟩
    | none =>
      rw [hr] at h
      by_cases hcc : c = '.'
      · rw [if_pos hcc] at h
        cases h
        exact ⟨List.suffix_rfl, by simp⟩
      · rw [if_neg hcc] at h
        cases h

theorem suffix_getLast? {e l : List Char} (h : e <:+ l) (hne : e ≠ []) :
    l.getLast? = e.getLast? := by
  obtain ⟨t, rfl⟩ := h
  rw [List.getLast?_append]
  cases he : e.getLast? with
  | none => exact absurd (List.getLast?_eq_none_iff.mp he) hne
  | some a => rfl

/-- Characterization of a successful `parseUrlRec`. -/
theorem parseUrlRec_some_elim {url : List Char} {u : UrlRec} (h : parseUrlRec url = some u) :
    ∃ scheme rest, splitFirst "://".data url = some (scheme, rest) ∧
      u.pathname.data =
        (if (rest.dropWhile (fun c => !(c == '/' || c == '?' || c == '#'))).head? = some '/' then
          (rest.dropWhile (fun c => !(c == '/' || c == '?' || c == '#'))).takeWhile
            (fun c => !(c == '?' || c == '#'))
        else ['/']) ∧
      u.hostname.data =
        ((afterLastOcc '@' (rest.takeWhile (fun c => !(c == '/' || c == '?' || c == '#')))).takeWhile
          (fun c => c != ':')).map Char.toLower := by
  unfold parseUrlRec at h
  cases hsp : splitFirst "://".data url with
  | none => rw [hsp] at h; cases h
  | some pr =>
    obtain ⟨scheme, rest⟩ := pr
    rw [hsp] at h
    dsimp only at h
    by_cases hca : (scheme.isEmpty || !(scheme.all Char.isAlpha)) = true
    · rw [if_pos hca] at h; cases h
    · rw [if_neg hca] at h
      simp only [Option.some.injEq] at h
      subst h
      exact ⟨scheme, rest, rfl, rfl, rfl⟩

/-- The pathname of the URL model never contains `'?'` or `'#'` and is
nonempty. -/
theorem parseUrlRec_pathname_clean {url : List Char} {u : UrlRec}
    (h : parseUrlRec url = some u) :
    (∀ c ∈ u.pathname.data, (!(c == '?' || c == '#')) = true) ∧ u.pathname.data ≠ [] := by
  obtain ⟨scheme, rest, hsp, hpath, hhost⟩ := parseUrlRec_some_elim h
  by_cases hhd : (rest.dropWhile (fun c => !(c == '/' || c == '?' || c == '#'))).head? = some '/'
  · rw [if_pos hhd] at hpath
    constructor
    · intro c hc
      rw [hpath] at hc
      have := List.all_takeWhile (p := fun c => !(c == '?' || c == '#'))
        (l := rest.dropWhile (fun c => !(c == '/' || c == '?' || c == '#')))
      rw [List.all_eq_true] at this
      exact this c hc
    · rw [hpath]
      cases hd : rest.dropWhile (fun c => !(c == '/' || c == '?' || c == '#')) with
      | nil => rw [hd] at hhd; cases hhd
      | cons a t =>
        rw [hd] at hhd
        simp only [List.head?_cons, Option.some.injEq] at hhd
        subst hhd
        rw [List.takeWhile_cons, if_pos (by decide)]
        simp
  · rw [if_neg hhd] at hpath
    rw [hpath]
    exact ⟨by decide, by simp⟩

/-- When the collected extension is a real one (nonempty, not ending in
`'/'`), `getFilename` returns exactly the (nonempty) last `'/'`-segment of
the model pathname. -/
theorem getFilename_lastSegment {url : String} {u : UrlRec}
    (hp : parseUrlRec url.data = some u)
    (hlast : u.pathname.data.getLast? ≠ some '/') :
    getFilenameJs url = String.mk (afterLastSlash u.pathname.data) ∧
    afterLastSlash u.pathname.data ≠ [] := by
  obtain ⟨hclean, hnonempty⟩ := parseUrlRec_pathname_clean hp
  have hsuf : afterLastSlash u.pathname.data <:+ u.pathname.data := afterLastSlash_suffix _
  have hkeep : (afterLastSlash u.pathname.data).takeWhile (fun c => c != '?') =
      afterLastSlash u.pathname.data := by
    apply takeWhile_all_eq
    intro c hc
    have hmem : c ∈ u.pathname.data := hsuf.subset hc
    have := hclean c hmem
    simp only [Bool.not_eq_true', Bool.or_eq_false_iff] at this
    simpa using this.1
  have hne : afterLastSlash u.pathname.data ≠ [] := by
    cases hgl : u.pathname.data.getLast? with
    | none => exact absurd (List.getLast?_eq_none_iff.mp hgl) hnonempty
    | some c =>
      have hcne : c ≠ '/' := fun hcc => hlast (hcc ▸ hgl)
      exact afterLastSlash_ne_nil hgl hcne
  refine ⟨?_, hne⟩
  unfold getFilenameJs
  rw [hp]
  simp only [hkeep]
  rw [if_neg (by simpa [List.isEmpty_iff] using hne)]

/-- Membership of `getExtension` in a table of honest extensions forces the
pathname not to end in `'/'`. -/
theorem pathname_not_slash_final {url : String} {u : UrlRec} {exts : List String}
    (hp : parseUrlRec url.data = some u)
    (hin : exts.contains (getExtensionJs url) = true)
    (hexts : exts.all (fun s => !(s == "") && (s.data.getLast? != some '/')) = true) :
    u.pathname.data.getLast? ≠ some '/' := by
  have hmem : getExtensionJs url ∈ exts := by
    simpa using hin
  have hprop := (List.all_eq_true.mp hexts) _ hmem
  simp only [Bool.and_eq_true, Bool.not_eq_true', beq_eq_false_iff_ne, ne_eq, bne_iff_ne] at hprop
  obtain ⟨hne0, hnl⟩ := hprop
  unfold getExtensionJs at hne0 hnl
  rw [hp] at hne0 hnl
  dsimp only at hne0 hnl
  cases hlow : u.pathname.data.map Char.toLower with
  | nil =>
    rw [hlow] at hne0
    dsimp only at hne0
    exact absurd rfl hne0
  | cons c rest =>
    rw [hlow] at hne0 hnl
    dsimp only at hne0 hnl
    cases hdot : extAfterLastDot rest with
    | none =>
      rw [hdot] at hne0
      exact absurd rfl hne0
    | some e =>
      rw [hdot] at hnl
      obtain ⟨hsuf, hene⟩ := extAfterLastDot_spec hdot
      have hrest_ne : rest ≠ [] := by
        intro hr
        subst hr
        exact hene (List.suffix_nil.mp hsuf)
      have h1 : (c :: rest).getLast? = rest.getLast? := by
        cases rest with
        | nil => exact absurd rfl hrest_ne
        | cons b t => simp
      have h2 : rest.getLast? = e.getLast? := suffix_getLast? hsuf hene
      intro hslash
      have h3 : (u.pathname.data.map Char.toLower).getLast? = some (Char.toLower '/') := by
        rw [List.getLast?_map, hslash]; rfl
      rw [hlow, h1, h2] at h3
      have : e.getLast? = some '/' := by simpa using h3
      simp only [String.data] at hnl
      exact hnl this

/-- C2 counterexample: for the direct media URL `https://example.com/clip.mp4`
(path ending in the supported extension `.mp4`), media-downloader variant 1's
`Run(DataCollector(url))` returns action `convert_to_mp3`, not `download`
(the direct download only appears as the `fallback` field). -/
theorem claim_C2_cx :
    ".mp4".data.isSuffixOf "https://example.com/clip.mp4".data = true ∧
    (MD1_Run (some (MD1_DataCollector "https://example.com/clip.mp4"))).action =
      some "convert_to_mp3" ∧
    (MD1_Run (some (MD1_DataCollector "https://example.com/clip.mp4"))).download = none := by
  decide

/-- `DataCollector` of variant 1 on a direct (non-stream) media URL. -/
theorem MD1_collect_direct {url : String} (hne : url ≠ "") {t : String}
    (hcl : classifyUrlJs MD1_audioExts MD1_videoExts MD1_streamExts url = some t)
    (hts : t ≠ "stream") :
    MD1_DataCollector url =
      { pageUrl := url,
        candidates := [{ url := url, filename := getFilenameJs url, type := t,
                         extension := getExtensionJs url, source := "direct-url" }],
        inputMode := some "direct-url",
        message := "Direct media URL detected: " ++
          replaceFirstStr (String.mk ((getExtensionJs url).data.map Char.toUpper)) "." "" } := by
  unfold MD1_DataCollector
  rw [if_neg (by simpa using hne)]
  rw [hcl]
  rw [if_neg (by simpa using hts)]

/-- `DataCollector` of part_000 on a direct (non-stream) media URL that is
not first claimed by a YouTube branch. -/
theorem MD2_collect_direct {url : String} (hne : url ≠ "")
    (hw : occursIn "youtube.com/watch".data url.data = false)
    (hb : occursIn "youtu.be/".data url.data = false)
    (hs : occursIn "youtube.com/shorts/".data url.data = false)
    {t : String}
    (hcl : classifyUrlJs MD2_audioExts MD2_videoExts MD2_streamExts url = some t)
    (hts : t ≠ "stream") :
    MD2_DataCollector url =
      { pageUrl := url, site := some "direct",
        candidates := [{ url := url, filename := getFilenameJs url, type := t,
                         extension := getExtensionJs url, source := "direct-url" }],
        message := "Direct " ++ t ++ " file detected: " ++ getFilenameJs url } := by
  unfold MD2_DataCollector
  rw [if_neg (by simpa using hne)]
  rw [hw, hb, hs]
  simp only [Bool.or_false]
  rw [if_neg Bool.false_ne_true, if_neg Bool.false_ne_true]
  simp only [MD2_collectRest, hcl]
  rw [if_neg (by simpa using hts)]

/-- C2 (amended): for every URL whose model pathname ends in a supported
audio/video extension, part_000's `Run(DataCollector(url))` — provided the URL
is not first classified as YouTube, whose check precedes the direct-URL check
there — returns action `download` whose `download.filename` is the (nonempty)
last path segment and whose `download.url` is the input URL unchanged; for
media-downloader variant 1 the same composition returns that `download`
action only for `.mp3` URLs, and for every other supported audio/video
extension it returns action `convert_to_mp3` whose `fallback` carries that
same download descriptor. -/
theorem claim_C2_amended (url : String) (u : UrlRec)
    (hp : parseUrlRec url.data = some u) :
    (∀ outcome,
      occursIn "youtube.com/watch".data url.data = false →
      occursIn "youtu.be/".data url.data = false →
      occursIn "youtube.com/shorts/".data url.data = false →
      (MD2_audioExts ++ MD2_videoExts).contains (getExtensionJs url) = true →
      (MD2_Run (some (MD2_DataCollector url)) outcome).success = true ∧
      (MD2_Run (some (MD2_DataCollector url)) outcome).action = some "download" ∧
      (MD2_Run (some (MD2_DataCollector url)) outcome).download =
        some { url := url, filename := String.mk (afterLastSlash u.pathname.data), saveAs := true } ∧
      afterLastSlash u.pathname.data ≠ []) ∧
    ((MD1_audioExts ++ MD1_videoExts).contains (getExtensionJs url) = true →
      (getExtensionJs url = ".mp3" →
        (MD1_Run (some (MD1_DataCollector url))).success = true ∧
        (MD1_Run (some (MD1_DataCollector url))).action = some "download" ∧
        (MD1_Run (some (MD1_DataCollector url))).download =
          some { url := url, filename := String.mk (afterLastSlash u.pathname.data), saveAs := true }) ∧
      (getExtensionJs url ≠ ".mp3" →
        (MD1_Run (some (MD1_DataCollector url))).success = true ∧
        (MD1_Run (some (MD1_DataCollector url))).action = some "convert_to_mp3" ∧
        (MD1_Run (some (MD1_DataCollector url))).download = none ∧
        (MD1_Run (some (MD1_DataCollector url))).fallback.map (fun fb => fb.download) =
          some { url := url, filename := String.mk (afterLastSlash u.pathname.data), saveAs := true })) := by
  have hne : url ≠ "" := by
    intro h
    subst h
    rw [show parseUrlRec "".data = none from rfl] at hp
    cases hp
  constructor
  · -- part_000
    intro outcome hw hb hs hext
    have hlastseg := getFilename_lastSegment hp
      (pathname_not_slash_final hp hext (by decide))
    obtain ⟨hfn, hfne⟩ := hlastseg
    have hcl : classifyUrlJs MD2_audioExts MD2_videoExts MD2_streamExts url = some "audio" ∨
        classifyUrlJs MD2_audioExts MD2_videoExts MD2_streamExts url = some "video" := by
      unfold classifyUrlJs
      by_cases ha : MD2_audioExts.contains (getExtensionJs url) = true
      · left; rw [if_pos ha]
      · right
        have hv : MD2_videoExts.contains (getExtensionJs url) = true := by
          rw [List.contains_eq_any_beq] at hext ⊢
          rw [List.any_append] at hext
          rcases Bool.or_eq_true_iff.mp hext with h | h
          · exact absurd (by rw [List.contains_eq_any_beq]; exact h) ha
          · exact h
        rw [if_neg (by simpa using ha), if_pos hv]
    have hmain : ∀ t, t ≠ "stream" →
        classifyUrlJs MD2_audioExts MD2_videoExts MD2_streamExts url = some t →
        (MD2_Run (some (MD2_DataCollector url)) outcome).success = true ∧
        (MD2_Run (some (MD2_DataCollector url)) outcome).action = some "download" ∧
        (MD2_Run (some (MD2_DataCollector url)) outcome).download =
          some { url := url, filename := String.mk (afterLastSlash u.pathname.data), saveAs := true } ∧
        afterLastSlash u.pathname.data ≠ [] := by
      intro t hts hclt
      rw [MD2_collect_direct hne hw hb hs hclt hts]
      unfold MD2_Run
      simp only [jsTruthy]
      rw [hfn]
      exact ⟨rfl, rfl, rfl, hfne⟩
    rcases hcl with h | h
    · exact hmain "audio" (by decide) h
    · exact hmain "video" (by decide) h
  · -- media-downloader variant 1
    intro hext
    have hlastseg := getFilename_lastSegment hp
      (pathname_not_slash_final hp hext (by decide))
    obtain ⟨hfn, hfne⟩ := hlastseg
    have hcl : classifyUrlJs MD1_audioExts MD1_videoExts MD1_streamExts url = some "audio" ∨
        classifyUrlJs MD1_audioExts MD1_videoExts MD1_streamExts url = some "video" := by
      unfold classifyUrlJs
      by_cases ha : MD1_audioExts.contains (getExtensionJs url) = true
      · left; rw [if_pos ha]
      · right
        have hv : MD1_videoExts.contains (getExtensionJs url) = true := by
          rw [List.contains_eq_any_beq] at hext ⊢
          rw [List.any_append] at hext
          rcases Bool.or_eq_true_iff.mp hext with h | h
          · exact absurd (by rw [List.contains_eq_any_beq]; exact h) ha
          · exact h
        rw [if_neg (by simpa using ha), if_pos hv]
    -- the collected extension is lowercase already (it is one of the table entries)
    have hlowext : String.mk ((getExtensionJs url).data.map Char.toLower) = getExtensionJs url := by
      have hmem : getExtensionJs url ∈ MD1_audioExts ++ MD1_videoExts := by simpa using hext
      have hall : (MD1_audioExts ++ MD1_videoExts).all
          (fun s => String.mk (s.data.map Char.toLower) == s) = true := by decide
      have := (List.all_eq_true.mp hall) _ hmem
      simpa using this
    have hnostream : MD1_streamExts.contains (getExtensionJs url) = false := by
      have hmem : getExtensionJs url ∈ MD1_audioExts ++ MD1_videoExts := by simpa using hext
      have hall : (MD1_audioExts ++ MD1_videoExts).all
          (fun s => !(MD1_streamExts.contains s)) = true := by decide
      have := (List.all_eq_true.mp hall) _ hmem
      simpa using this
    have key : ∀ t, t ≠ "stream" →
        classifyUrlJs MD1_audioExts MD1_videoExts MD1_streamExts url = some t →
        (getExtensionJs url = ".mp3" →
          (MD1_Run (some (MD1_DataCollector url))).success = true ∧
          (MD1_Run (some (MD1_DataCollector url))).action = some "download" ∧
          (MD1_Run (some (MD1_DataCollector url))).download =
            some { url := url, filename := String.mk (afterLastSlash u.pathname.data), saveAs := true }) ∧
        (getExtensionJs url ≠ ".mp3" →
          (MD1_Run (some (MD1_DataCollector url))).success = true ∧
          (MD1_Run (some (MD1_DataCollector url))).action = some "convert_to_mp3" ∧
          (MD1_Run (some (MD1_DataCollector url))).download = none ∧
          (MD1_Run (some (MD1_DataCollector url))).fallback.map (fun fb => fb.download) =
            some { url := url, filename := String.mk (afterLastSlash u.pathname.data), saveAs := true }) := by
      intro t hts hclt
      rw [MD1_collect_direct hne hclt hts]
      constructor
      · intro hmp3
        have h3 : (getExtensionJs url == ".mp3") = true := by simpa using hmp3
        simp only [MD1_Run, jsTruthy, hlowext, hfn, hnostream, h3, Bool.false_eq_true,
          if_false, if_true]
        exact ⟨trivial, trivial, trivial⟩
      · intro hnmp3
        have h3 : (getExtensionJs url == ".mp3") = false := by simpa using hnmp3
        by_cases ha : MD1_audioExts.contains (getExtensionJs url) = true
        · simp only [MD1_Run, jsTruthy, hlowext, hfn, hnostream, h3, ha, Bool.false_eq_true,
            if_false, if_true]
          exact ⟨trivial, trivial, trivial, rfl⟩
        · have hv : MD1_videoExts.contains (getExtensionJs url) = true := by
            have hmem : getExtensionJs url ∈ MD1_audioExts ++ MD1_videoExts := by simpa using hext
            rcases List.mem_append.mp hmem with h | h
            · exact absurd (by simpa using h) (by simpa using ha)
            · simpa using h
          have ha' : MD1_audioExts.contains (getExtensionJs url) = false := by
            simpa using ha
          simp only [MD1_Run, jsTruthy, hlowext, hfn, hnostream, h3, ha', hv, Bool.false_eq_true,
            if_false, if_true]
          exact ⟨trivial, trivial, trivial, rfl⟩
    rcases hcl with h | h
    · exact key "audio" (by decide) h
    · exact key "video" (by decide) h

theorem claim_C2_amended_witness :
    parseUrlRec "https://example.com/song.mp3".data =
      some { hostname := "example.com", pathname := "/song.mp3" } ∧
    (MD2_Run (some (MD2_DataCollector "https://example.com/song.mp3")) (.ok .noMatch)).download =
      some { url := "https://example.com/song.mp3", filename := "song.mp3", saveAs := true } ∧
    (MD1_Run (some (MD1_DataCollector "https://example.com/song.mp3"))).action = some "download" := by
  refine ⟨by decide, ?_, ?_⟩
  · have h := (claim_C2_amended "https://example.com/song.mp3"
      { hostname := "example.com", pathname := "/song.mp3" } (by decide)).1
      (.ok .noMatch) (by decide) (by decide) (by decide) (by decide)
    rw [h.2.2.1]
    decide
  · have h := ((claim_C2_amended "https://example.com/song.mp3"
      { hostname := "example.com", pathname := "/song.mp3" } (by decide)).2
      (by decide)).1 (by decide)
    exact h.2.1

/-- Variant 1's `Run` fails whenever the collected data has no candidates. -/
theorem MD1_Run_no_candidates {d : MD1Result} (h : d.candidates = []) :
    (MD1_Run (some d)).success = false := by
  unfold MD1_Run
  by_cases he : jsTruthy d.error = true
  · simp [he]
  · simp [he, h]

/-- part_000's `Run` fails whenever the collected data has neither video info
nor candidates. -/
theorem MD2_Run_no_media {d : MD2Result} (h1 : d.candidates = []) (h2 : d.videoInfo = none)
    (outcome : YTFetchOutcome) : (MD2_Run (some d) outcome).success = false := by
  unfold MD2_Run
  by_cases he : jsTruthy d.error = true
  · simp [he]
  · simp [he, h1, h2]

/-- C6 counterexample: `https://netflix.com/clip.mp4` has a DRM-listed host
(`netflix.com`), yet both media-downloader collectors classify it as a direct
media candidate with no error, because the extension check runs before the
DRM-site check. -/
theorem claim_C6_cx :
    parseUrlRec "https://netflix.com/clip.mp4".data =
      some { hostname := "netflix.com", pathname := "/clip.mp4" } ∧
    occursIn "netflix.com".data "https://netflix.com/clip.mp4".data = true ∧
    (MD1_DataCollector "https://netflix.com/clip.mp4").error = none ∧
    (MD1_DataCollector "https://netflix.com/clip.mp4").candidates.length = 1 ∧
    (MD2_DataCollector "https://netflix.com/clip.mp4").error = none ∧
    (MD2_DataCollector "https://netflix.com/clip.mp4").candidates.length = 1 := by
  decide

/-- C6 (amended): a URL that contains a DRM-listed domain yields the terminal
DRM error — with no candidate, no video info, and a failing `Run` — provided
the earlier branches do not claim it first: in both collectors the direct
media-extension classification (and the YouTube checks) precede the DRM
check.  (The collectors perform no network calls at all in this model.) -/
theorem claim_C6_amended (url : String) (hne : url ≠ "") :
    (∀ site, MD1_drmSites.find? (fun s => occursIn s.data url.data) = some site →
      classifyUrlJs MD1_audioExts MD1_videoExts MD1_streamExts url = none →
      occursIn "youtube.com/watch".data url.data = false →
      occursIn "youtu.be/".data url.data = false →
      (MD1_DataCollector url).error =
        some ("This site (" ++ site ++ ") uses DRM-protected streaming. Content cannot be downloaded.") ∧
      (MD1_DataCollector url).candidates = [] ∧
      (MD1_Run (some (MD1_DataCollector url))).success = false) ∧
    (∀ site, MD2_drmSites.find? (fun s => occursIn s.data url.data) = some site →
      classifyUrlJs MD2_audioExts MD2_videoExts MD2_streamExts url = none →
      occursIn "youtube.com/watch".data url.data = false →
      occursIn "youtu.be/".data url.data = false →
      occursIn "youtube.com/shorts/".data url.data = false →
      ∀ outcome,
      (MD2_DataCollector url).error =
        some "This site uses DRM protection. Content cannot be downloaded." ∧
      (MD2_DataCollector url).candidates = [] ∧
      (MD2_DataCollector url).videoInfo = none ∧
      (MD2_Run (some (MD2_DataCollector url)) outcome).success = false) := by
  have hne0 : (url == "") = false := by simpa using hne
  constructor
  · intro site hdrm hcl hw hb
    have hcol : MD1_DataCollector url =
        { pageUrl := url, candidates := [],
          error := some ("This site (" ++ site ++ ") uses DRM-protected streaming. Content cannot be downloaded.") } := by
      simp only [MD1_DataCollector, hne0, hcl, hw, hb, hdrm, Bool.or_false,
        Bool.false_eq_true, if_false]
      simp
    refine ⟨by rw [hcol], by rw [hcol], ?_⟩
    rw [hcol]
    exact MD1_Run_no_candidates rfl
  · intro site hdrm hcl hw hb hs outcome
    have hcol : MD2_DataCollector url =
        { pageUrl := url,
          error := some "This site uses DRM protection. Content cannot be downloaded." } := by
      simp only [MD2_DataCollector, hne0, hw, hb, hs, Bool.or_false, Bool.false_eq_true,
        if_false, MD2_collectRest, hcl, hdrm]
      simp
    refine ⟨by rw [hcol], by rw [hcol], by rw [hcol], ?_⟩
    rw [hcol]
    exact MD2_Run_no_media rfl rfl outcome

theorem claim_C6_amended_witness :
    (MD1_DataCollector "https://www.netflix.com/title/81234567").error =
      some "This site (netflix.com) uses DRM-protected streaming. Content cannot be downloaded." ∧
    (MD2_Run (some (MD2_DataCollector "https://www.netflix.com/title/81234567")) (.ok .noMatch)).success = false := by
  constructor
  · exact ((claim_C6_amended "https://www.netflix.com/title/81234567" (by decide)).1
      "netflix.com" (by decide) (by decide) (by decide) (by decide)).1
  · exact (((claim_C6_amended "https://www.netflix.com/title/81234567" (by decide)).2
      "netflix.com" (by decide) (by decide) (by decide) (by decide) (by decide)) (.ok .noMatch)).2.2.2

theorem extAfterLastDot_eq_none {l : List Char} (h : '.' ∉ l) : extAfterLastDot l = none := by
  induction l with
  | nil => rfl
  | cons c rest ih =>
    unfold extAfterLastDot
    rw [ih (fun hm => h (List.mem_cons_of_mem c hm))]
    rw [if_neg (fun (hc : c = '.') => h (hc ▸ List.mem_cons_self c rest))]

theorem extAfterLastDot_of_suffix {t l : List Char} (hdot : '.' ∉ t)
    (h : ('.' :: t) <:+ l) : extAfterLastDot l = some ('.' :: t) := by
  induction l with
  | nil =>
    have := List.suffix_nil.mp h
    cases this
  | cons c rest ih =>
    rcases List.suffix_cons_iff.mp h with heq | hsuf
    · injection heq with hc hrest
      subst hc
      subst hrest
      unfold extAfterLastDot
      rw [extAfterLastDot_eq_none hdot]
      rw [if_pos rfl]
    · unfold extAfterLastDot
      rw [ih hsuf]

/-- The pathname of the URL model always starts with `'/'`. -/
theorem parseUrlRec_pathname_head {url : List Char} {u : UrlRec}
    (h : parseUrlRec url = some u) : u.pathname.data.head? = some '/' := by
  obtain ⟨scheme, rest, hsp, hpath, hhost⟩ := parseUrlRec_some_elim h
  by_cases hhd : (rest.dropWhile (fun c => !(c == '/' || c == '?' || c == '#'))).head? = some '/'
  · rw [if_pos hhd] at hpath
    cases hd : rest.dropWhile (fun c => !(c == '/' || c == '?' || c == '#')) with
    | nil => rw [hd] at hhd; cases hhd
    | cons a tl =>
      rw [hd] at hhd hpath
      simp only [List.head?_cons, Option.some.injEq] at hhd
      subst hhd
      rw [List.takeWhile_cons, if_pos (by decide)] at hpath
      rw [hpath]
      rfl
  · rw [if_neg hhd] at hpath
    rw [hpath]
    rfl

/-- When the lowercased model pathname ends in a proper extension
(`'.'` followed by dot-free characters), `getExtension` returns exactly that
extension. -/
theorem getExtension_of_pathSuffix {url : String} {u : UrlRec} {t : List Char}
    (hp : parseUrlRec url.data = some u) (hdot : '.' ∉ t)
    (hsuf : ('.' :: t) <:+ u.pathname.data.map Char.toLower) :
    getExtensionJs url = String.mk ('.' :: t) := by
  have hhead := parseUrlRec_pathname_head hp
  cases hlow : u.pathname.data.map Char.toLower with
  | nil =>
    rw [hlow] at hsuf
    cases List.suffix_nil.mp hsuf
  | cons c rest =>
    have hc : c = '/' := by
      cases hpd : u.pathname.data with
      | nil => rw [hpd] at hlow; cases hlow
      | cons p0 ptl =>
        rw [hpd] at hhead hlow
        simp only [List.head?_cons, Option.some.injEq] at hhead
        subst hhead
        rw [List.map_cons] at hlow
        injection hlow with h1 _
        rw [← h1]
        rfl
    rw [hlow] at hsuf
    rcases List.suffix_cons_iff.mp hsuf with heq | hsuf2
    · injection heq with h1 _
      rw [hc] at h1
      cases h1
    · unfold getExtensionJs
      rw [hp]
      dsimp only
      rw [hlow]
      dsimp only
      rw [extAfterLastDot_of_suffix hdot hsuf2]

/-- C7 counterexample: `https://example.com/watch?list=x.m3u8` ends in
`.m3u8`, but since the extension is read from the URL pathname (`/watch`),
both collectors classify it as an ordinary page: no error and no candidate,
rather than the claimed terminal "cannot download" error. -/
theorem claim_C7_cx :
    ".m3u8".data.isSuffixOf "https://example.com/watch?list=x.m3u8".data = true ∧
    (MD1_DataCollector "https://example.com/watch?list=x.m3u8").error = none ∧
    (MD1_DataCollector "https://example.com/watch?list=x.m3u8").inputMode = some "manual" ∧
    (MD2_DataCollector "https://example.com/watch?list=x.m3u8").error = none ∧
    (MD2_DataCollector "https://example.com/watch?list=x.m3u8").site = some "unknown" := by
  decide

/-- C7 (amended): for every URL whose model pathname (not the raw URL string)
ends in `.m3u8` or `.mpd`, variant 1's collector returns the terminal
streaming-manifest error with no candidate and a failing `Run`; part_000
behaves the same provided its earlier YouTube branches do not claim the URL
first. -/
theorem claim_C7_amended (url : String) (u : UrlRec)
    (hp : parseUrlRec url.data = some u)
    (hend : ".m3u8".data.isSuffixOf (u.pathname.data.map Char.toLower) = true ∨
            ".mpd".data.isSuffixOf (u.pathname.data.map Char.toLower) = true) :
    ((MD1_DataCollector url).error =
        some "This is a streaming manifest (.m3u8/.mpd). Cannot download directly - these are segmented streams that require special handling." ∧
      (MD1_DataCollector url).candidates = [] ∧
      (MD1_Run (some (MD1_DataCollector url))).success = false) ∧
    (occursIn "youtube.com/watch".data url.data = false →
      occursIn "youtu.be/".data url.data = false →
      occursIn "youtube.com/shorts/".data url.data = false →
      ∀ outcome,
      (MD2_DataCollector url).error =
        some "Streaming manifest detected (.m3u8/.mpd). These are segmented streams that require special handling." ∧
      (MD2_DataCollector url).candidates = [] ∧
      (MD2_DataCollector url).videoInfo = none ∧
      (MD2_Run (some (MD2_DataCollector url)) outcome).success = false) := by
  have hne : url ≠ "" := by
    intro h
    subst h
    rw [show parseUrlRec "".data = none from rfl] at hp
    cases hp
  have hne0 : (url == "") = false := by simpa using hne
  have hext : getExtensionJs url = ".m3u8" ∨ getExtensionJs url = ".mpd" := by
    rcases hend with h | h
    · left
      exact getExtension_of_pathSuffix hp (by decide)
        (by simpa using (List.isSuffixOf_iff_suffix.mp h))
    · right
      exact getExtension_of_pathSuffix hp (by decide)
        (by simpa using (List.isSuffixOf_iff_suffix.mp h))
  have hcl1 : classifyUrlJs MD1_audioExts MD1_videoExts MD1_streamExts url = some "stream" := by
    rcases hext with h | h <;> (unfold classifyUrlJs; rw [h]; decide)
  have hcl2 : classifyUrlJs MD2_audioExts MD2_videoExts MD2_streamExts url = some "stream" := by
    rcases hext with h | h <;> (unfold classifyUrlJs; rw [h]; decide)
  constructor
  · have hcol : MD1_DataCollector url =
        { pageUrl := url, candidates := [],
          error := some "This is a streaming manifest (.m3u8/.mpd). Cannot download directly - these are segmented streams that require special handling." } := by
      simp only [MD1_DataCollector, hne0, hcl1, Bool.false_eq_true, if_false]
      simp
    refine ⟨by rw [hcol], by rw [hcol], ?_⟩
    rw [hcol]
    exact MD1_Run_no_candidates rfl
  · intro hw hb hs outcome
    have hcol : MD2_DataCollector url =
        { pageUrl := url,
          error := some "Streaming manifest detected (.m3u8/.mpd). These are segmented streams that require special handling." } := by
      simp only [MD2_DataCollector, hne0, hw, hb, hs, Bool.or_false, Bool.false_eq_true,
        if_false, MD2_collectRest, hcl2]
      simp
    refine ⟨by rw [hcol], by rw [hcol], by rw [hcol], ?_⟩
    rw [hcol]
    exact MD2_Run_no_media rfl rfl outcome

theorem claim_C7_amended_witness :
    parseUrlRec "https://example.com/live/stream.m3u8".data =
      some { hostname := "example.com", pathname := "/live/stream.m3u8" } ∧
    (MD1_DataCollector "https://example.com/live/stream.m3u8").candidates = [] ∧
    (MD2_Run (some (MD2_DataCollector "https://example.com/live/stream.m3u8")) (.ok .noMatch)).success = false := by
  refine ⟨by decide, ?_, ?_⟩
  · exact (claim_C7_amended "https://example.com/live/stream.m3u8"
      { hostname := "example.com", pathname := "/live/stream.m3u8" } (by decide)
      (Or.inl (by decide))).1.2.1
  · exact ((claim_C7_amended "https://example.com/live/stream.m3u8"
      { hostname := "example.com", pathname := "/live/stream.m3u8" } (by decide)
      (Or.inl (by decide))).2 (by decide) (by decide) (by decide) (.ok .noMatch)).2.2.2

/-- Lowercasing `s ++ ".mp3"` always ends in `".mp3"`. -/
theorem mp3_suffix_append (s : String) :
    ".mp3".data.isSuffixOf ((s ++ ".mp3").data.map Char.toLower) = true := by
  rw [String.data_append, List.map_append]
  rw [show ".mp3".data.map Char.toLower = ".mp3".data from rfl]
  exact List.isSuffixOf_iff_suffix.mpr (List.suffix_append _ _)

/-- Every filename the primary cobalt path produces ends in `".mp3"` up to
letter case. -/
theorem YTA_filename_mp3 (id : String) (body : CobaltBody) :
    ".mp3".data.isSuffixOf ((YTA_filename id body).data.map Char.toLower) = true := by
  unfold YTA_filename
  cases hf : body.filename with
  | none => exact mp3_suffix_append ("youtube-" ++ id)
  | some f =>
    dsimp only
    by_cases h0 : (f == "") = true
    · rw [if_pos h0]
      exact mp3_suffix_append ("youtube-" ++ id)
    · rw [if_neg h0]
      by_cases hsfx : ".mp3".data.isSuffixOf (f.data.map Char.toLower) = true
      · rw [if_pos hsfx]
        exact hsfx
      · rw [if_neg hsfx]
        exact mp3_suffix_append f

theorem YTA_primary_download {id : String} {r : ApiOutcome} {res : RunResult}
    (h : YTA_primary id r = .ok res) :
    ∃ d, res.download = some d ∧
      ".mp3".data.isSuffixOf (d.filename.data.map Char.toLower) = true := by
  cases r with
  | reject m => simp [YTA_primary] at h
  | notOk s => simp [YTA_primary] at h
  | badJson m => simp [YTA_primary] at h
  | ok body =>
    unfold YTA_primary at h
    dsimp only at h
    by_cases hs : body.status = some "error"
    · rw [if_pos hs] at h; cases h
    · rw [if_neg hs] at h
      cases hd : YTA_downloadUrl body with
      | none => rw [hd] at h; cases h
      | some durl =>
        rw [hd] at h
        dsimp only at h
        by_cases hde : (durl == "") = true
        · rw [if_pos hde] at h; cases h
        · rw [if_neg hde] at h
          injection h with h
          subst h
          exact ⟨_, rfl, YTA_filename_mp3 id body⟩

theorem YTA_fallback_download {id : String} {r : ApiOutcome} {res : RunResult}
    (h : YTA_fallback id r = some res) :
    ∃ d, res.download = some d ∧
      ".mp3".data.isSuffixOf (d.filename.data.map Char.toLower) = true := by
  cases r with
  | reject m => simp [YTA_fallback] at h
  | notOk s => simp [YTA_fallback] at h
  | badJson m => simp [YTA_fallback] at h
  | ok body =>
    unfold YTA_fallback at h
    dsimp only at h
    by_cases hs : body.status = some "error"
    · rw [if_pos hs] at h; cases h
    · rw [if_neg hs] at h
      cases hu : body.url with
      | none => rw [hu] at h; cases h
      | some u =>
        rw [hu] at h
        dsimp only at h
        by_cases hue : (u == "") = true
        · rw [if_pos hue] at h; cases h
        · rw [if_neg hue] at h
          injection h with h
          subst h
          exact ⟨_, rfl, mp3_suffix_append ("youtube-" ++ id)⟩

/-- C10 counterexample: when the cobalt API supplies the filename
`TRACK.MP3`, the successful result keeps it unchanged (the `endsWith` check
lowercases first), so the filename does not end in the literal `'.mp3'`. -/
theorem claim_C10_cx :
    (YTA_Run (some (YTA_DataCollector "https://www.youtube.com/watch?v=dQw4w9WgXcQ"))
      (.ok { status := some "tunnel", url := some "https://dl.example/audio",
             filename := some "TRACK.MP3" })
      (.ok {})).success = true ∧
    (YTA_Run (some (YTA_DataCollector "https://www.youtube.com/watch?v=dQw4w9WgXcQ"))
      (.ok { status := some "tunnel", url := some "https://dl.example/audio",
             filename := some "TRACK.MP3" })
      (.ok {})).download.map (fun d => d.filename) = some "TRACK.MP3" ∧
    ".mp3".data.isSuffixOf "TRACK.MP3".data = false := by
  decide

/-- C10 (amended): whenever the YouTube audio downloader's `Run` succeeds,
the result carries a download whose filename ends in `'.mp3'` up to letter
case (the suffix is appended exactly when the lowercased API filename lacks
it, and every default filename carries it literally). -/
theorem claim_C10_amended (cd : Option YTAResult) (r1 r2 : ApiOutcome)
    (h : (YTA_Run cd r1 r2).success = true) :
    ∃ d, (YTA_Run cd r1 r2).download = some d ∧
      ".mp3".data.isSuffixOf (d.filename.data.map Char.toLower) = true := by
  cases cd with
  | none => simp [YTA_Run] at h
  | some c =>
    unfold YTA_Run at h ⊢
    dsimp only at h ⊢
    by_cases he : jsTruthy c.error = true
    · rw [if_pos he] at h; cases h
    · rw [if_neg he] at h ⊢
      cases hm : c.media with
      | nil =>
        rw [hm] at h
        simp at h
      | cons m ms =>
        rw [hm] at h
        dsimp only at h ⊢
        cases hp : YTA_primary (jsToStr c.videoId) r1 with
        | ok res =>
          rw [hp] at h
          dsimp only at h ⊢
          exact YTA_primary_download hp
        | error e =>
          rw [hp] at h
          dsimp only at h ⊢
          cases hf : YTA_fallback (jsToStr c.videoId) r2 with
          | some res =>
            rw [hf] at h
            dsimp only at h ⊢
            exact YTA_fallback_download hf
          | none =>
            rw [hf] at h
            simp at h

theorem claim_C10_amended_witness :
    (YTA_Run (some (YTA_DataCollector "https://www.youtube.com/watch?v=dQw4w9WgXcQ"))
      (.ok { status := some "tunnel", url := some "https://dl.example/audio",
             filename := some "TRACK.MP3" })
      (.ok {})).success = true ∧
    ∃ d, (YTA_Run (some (YTA_DataCollector "https://www.youtube.com/watch?v=dQw4w9WgXcQ"))
      (.ok { status := some "tunnel", url := some "https://dl.example/audio",
             filename := some "TRACK.MP3" })
      (.ok {})).download = some d ∧
      ".mp3".data.isSuffixOf (d.filename.data.map Char.toLower) = true := by
  refine ⟨by decide, ?_⟩
  exact claim_C10_amended (some (YTA_DataCollector "https://www.youtube.com/watch?v=dQw4w9WgXcQ"))
    (.ok { status := some "tunnel", url := some "https://dl.example/audio",
           filename := some "TRACK.MP3" })
    (.ok {}) (by decide)

/-- C9: every collector is a total function (the embedding of "never
throws"), and a URL-parse failure is converted internally: the
media-downloader helpers fall back to the defaults `''` and `'media'`, while
the thumbnail and YouTube-audio collectors return a record whose `error`
field is set. -/
theorem claim_C9 (url : String) (hfail : parseUrlRec url.data = none) :
    getExtensionJs url = "" ∧
    getFilenameJs url = "media" ∧
    (TD1_DataCollector url).error.isSome = true ∧
    (YTA_DataCollector url).error.isSome = true := by
  refine ⟨?_, ?_, ?_, ?_⟩
  · unfold getExtensionJs
    rw [hfail]
  · unfold getFilenameJs
    rw [hfail]
  · unfold TD1_DataCollector
    by_cases h0 : (url == "") = true
    · rw [if_pos h0]
      rfl
    · rw [if_neg h0, hfail]
      rfl
  · unfold YTA_DataCollector
    by_cases h0 : (url == "") = true
    · rw [if_pos h0]
      rfl
    · rw [if_neg h0, hfail]
      rfl

theorem claim_C9_witness :
    parseUrlRec "notaurl".data = none ∧
    getFilenameJs "notaurl" = "media" ∧
    (YTA_DataCollector "notaurl").error.isSome = true := by
  refine ⟨by decide, ?_, ?_⟩
  · exact (claim_C9 "notaurl" (by decide)).2.1
  · exact (claim_C9 "notaurl" (by decide)).2.2.2

/-! ### The format selector (C5) -/

/-- One step of "keep the current best, replace only on strictly greater
key" — the head of a stable descending sort evolves exactly like this fold. -/
def stepMax (b : Option StreamFormat) (f : StreamFormat) : Option StreamFormat :=
  match b with
  | none => some f
  | some g => if keyB f > keyB g then some f else some g

theorem insertDesc_head? (f : StreamFormat) (acc : List StreamFormat) :
    (insertDesc f acc).head? = stepMax acc.head? f := by
  cases acc with
  | nil => rfl
  | cons g gs =>
    unfold insertDesc stepMax
    by_cases h : keyB f > keyB g
    · rw [if_pos h]
      simp [h]
    · rw [if_neg h]
      simp [h]

theorem sortFold_head? (l : List StreamFormat) (acc : List StreamFormat) :
    (l.foldl (fun a f => insertDesc f a) acc).head? = l.foldl stepMax acc.head? := by
  induction l generalizing acc with
  | nil => rfl
  | cons f t ih =>
    rw [List.foldl_cons, List.foldl_cons, ih, insertDesc_head?]

theorem foldl_stepMax_some (l : List StreamFormat) (b : StreamFormat) :
    ∃ g, l.foldl stepMax (some b) = some g ∧
      ((g = b ∧ ∀ f ∈ l, keyB f ≤ keyB b) ∨
       (∃ l1 l2, l = l1 ++ g :: l2 ∧ keyB b < keyB g ∧
         (∀ f ∈ l1, keyB f < keyB g) ∧ (∀ f ∈ l2, keyB f ≤ keyB g))) := by
  induction l generalizing b with
  | nil => exact ⟨b, rfl, Or.inl ⟨rfl, by simp⟩⟩
  | cons f t ih =>
    by_cases hgt : keyB f > keyB b
    · obtain ⟨g, hg, hcase⟩ := ih f
      refine ⟨g, ?_, ?_⟩
      · rw [List.foldl_cons]
        rw [show stepMax (some b) f = some f from by simp [stepMax, hgt]]
        exact hg
      · rcases hcase with ⟨rfl, hall⟩ | ⟨l1, l2, heq, hbg, h1, h2⟩
        · exact Or.inr ⟨[], t, rfl, hgt, by simp, hall⟩
        · refine Or.inr ⟨f :: l1, l2, by rw [heq]; rfl, lt_trans hgt hbg, ?_, h2⟩
          intro x hx
          rcases List.mem_cons.mp hx with rfl | hx
          · exact hbg
          · exact h1 x hx
    · obtain ⟨g, hg, hcase⟩ := ih b
      refine ⟨g, ?_, ?_⟩
      · rw [List.foldl_cons]
        rw [show stepMax (some b) f = some b from by simp [stepMax, hgt]]
        exact hg
      · rcases hcase with ⟨rfl, hall⟩ | ⟨l1, l2, heq, hbg, h1, h2⟩
        · refine Or.inl ⟨rfl, ?_⟩
          intro x hx
          rcases List.mem_cons.mp hx with rfl | hx
          · omega
          · exact hall x hx
        · refine Or.inr ⟨f :: l1, l2, by rw [heq]; rfl, hbg, ?_, h2⟩
          intro x hx
          rcases List.mem_cons.mp hx with rfl | hx
          · omega
          · exact h1 x hx

/-- The head of the stable descending bitrate sort is the first format
attaining the maximal key: earlier formats have strictly smaller keys, later
ones smaller-or-equal. -/
theorem sortDesc_head_argmax {l : List StreamFormat} {g : StreamFormat} {tl : List StreamFormat}
    (h : sortByBitrateDesc l = g :: tl) :
    ∃ l1 l2, l = l1 ++ g :: l2 ∧ (∀ f ∈ l1, keyB f < keyB g) ∧ (∀ f ∈ l2, keyB f ≤ keyB g) := by
  have hh : (sortByBitrateDesc l).head? = some g := by rw [h]; rfl
  rw [sortByBitrateDesc, sortFold_head? l []] at hh
  cases l with
  | nil => cases hh
  | cons a t =>
    rw [List.foldl_cons] at hh
    rw [show stepMax ([] : List StreamFormat).head? a = some a from rfl] at hh
    obtain ⟨g', hg', hcase⟩ := foldl_stepMax_some t a
    rw [hg'] at hh
    injection hh with hh
    subst hh
    rcases hcase with ⟨rfl, hall⟩ | ⟨l1, l2, heq, hbg, h1, h2⟩
    · exact ⟨[], t, rfl, by simp, hall⟩
    · refine ⟨a :: l1, l2, by rw [heq]; rfl, ?_, h2⟩
      intro x hx
      rcases List.mem_cons.mp hx with rfl | hx
      · exact hbg
      · exact h1 x hx

theorem insertDesc_length (f : StreamFormat) (l : List StreamFormat) :
    (insertDesc f l).length = l.length + 1 := by
  induction l with
  | nil => rfl
  | cons g gs ih =>
    unfold insertDesc
    by_cases h : keyB f > keyB g
    · rw [if_pos h]; rfl
    · rw [if_neg h]
      simp [ih]

theorem sortDesc_length (l : List StreamFormat) :
    (sortByBitrateDesc l).length = l.length := by
  rw [sortByBitrateDesc]
  have haux : ∀ (m acc : List StreamFormat),
      (m.foldl (fun a f => insertDesc f a) acc).length = acc.length + m.length := by
    intro m
    induction m with
    | nil => intro acc; simp
    | cons f t ih =>
      intro acc
      rw [List.foldl_cons, ih, insertDesc_length, List.length_cons]
      omega
  rw [haux l []]
  simp

/-- The spec's worked example: two audio-only formats with bitrates 128000
and 256000. -/
def pExample : PlayerResponse :=
  { playabilityStatus := some { status := some "OK" },
    streamingData := some
      { adaptiveFormats :=
          [ { url := some "https://example.com/a128", mimeType := some "audio/webm",
              bitrate := some 128000 },
            { url := some "https://example.com/a256", mimeType := some "audio/webm",
              bitrate := some 256000 } ] } }

/-- C5: part_000's format selector picks the audio format with the greatest
bitrate, ties broken in favour of the earlier entry (the first max of the
stable descending sort); with no audio format it uses the first combined
format, and with neither the first remaining candidate; on the spec's worked
example it picks the 256000 entry. -/
theorem claim_C5 :
    (∀ vi p, (availFormats p).filter (fun f => f.type == "audio") ≠ [] →
      ∃ g l1 l2,
        (availFormats p).filter (fun f => f.type == "audio") = l1 ++ g :: l2 ∧
        (∀ f ∈ l1, keyB f < keyB g) ∧ (∀ f ∈ l2, keyB f ≤ keyB g) ∧
        (ytSelectAndBuild vi p).success = true ∧
        (ytSelectAndBuild vi p).download =
          some { url := g.url,
                 filename := ytTitle vi p ++
                   (if occursIn "mp4".data g.mimeType.data then ".m4a" else ".webm"),
                 saveAs := true }) ∧
    (∀ vi p c cs, (availFormats p).filter (fun f => f.type == "audio") = [] →
      (availFormats p).filter (fun f => f.type == "combined") = c :: cs →
      (ytSelectAndBuild vi p).success = true ∧
      (ytSelectAndBuild vi p).download =
        some { url := c.url, filename := ytTitle vi p ++ ".mp4", saveAs := true }) ∧
    (∀ vi p a as, (availFormats p).filter (fun f => f.type == "audio") = [] →
      (availFormats p).filter (fun f => f.type == "combined") = [] →
      availFormats p = a :: as →
      (ytSelectAndBuild vi p).success = true ∧
      (ytSelectAndBuild vi p).download =
        some { url := a.url, filename := ytTitle vi p ++ ".mp4", saveAs := true }) ∧
    (ytSelectAndBuild viSample pExample).download.map (fun d => d.url) =
      some "https://example.com/a256" := by
  refine ⟨?_, ?_, ?_, by decide⟩
  · intro vi p hne
    cases hA : availFormats p with
    | nil =>
      rw [hA] at hne
      simp at hne
    | cons a0 rest0 =>
      rw [hA] at hne
      cases hS : sortByBitrateDesc ((a0 :: rest0).filter (fun f => f.type == "audio")) with
      | nil =>
        exfalso
        have := sortDesc_length ((a0 :: rest0).filter (fun f => f.type == "audio"))
        rw [hS] at this
        exact hne (List.length_eq_zero.mp this.symm)
      | cons g tl =>
        obtain ⟨l1, l2, heq, h1, h2⟩ := sortDesc_head_argmax hS
        refine ⟨g, l1, l2, heq, h1, fun f hf => h2 f hf, ?_, ?_⟩
        · unfold ytSelectAndBuild
          rw [hA]
          dsimp only
          rw [hS]
        · unfold ytSelectAndBuild
          rw [hA]
          dsimp only
          rw [hS]
  · intro vi p c cs haud hcomb
    have hAne : availFormats p ≠ [] := by
      intro h
      rw [h] at hcomb
      cases hcomb
    cases hA : availFormats p with
    | nil => exact absurd hA hAne
    | cons a0 rest0 =>
      rw [hA] at haud hcomb
      have hS : sortByBitrateDesc ((a0 :: rest0).filter (fun f => f.type == "audio")) = [] := by
        rw [haud]
        rfl
      constructor
      · unfold ytSelectAndBuild
        rw [hA]
        dsimp only
        rw [hS, hcomb]
      · unfold ytSelectAndBuild
        rw [hA]
        dsimp only
        rw [hS, hcomb]
  · intro vi p a as haud hcomb hA
    rw [hA] at haud hcomb
    have hS : sortByBitrateDesc ((a :: as).filter (fun f => f.type == "audio")) = [] := by
      rw [haud]
      rfl
    constructor
    · unfold ytSelectAndBuild
      rw [hA]
      dsimp only
      rw [hS, hcomb]
    · unfold ytSelectAndBuild
      rw [hA]
      dsimp only
      rw [hS, hcomb]

theorem claim_C5_witness :
    (availFormats pExample).filter (fun f => f.type == "audio") ≠ [] ∧
    ∃ g l1 l2,
      (availFormats pExample).filter (fun f => f.type == "audio") = l1 ++ g :: l2 ∧
      (∀ f ∈ l1, keyB f < keyB g) ∧ (∀ f ∈ l2, keyB f ≤ keyB g) ∧
      (ytSelectAndBuild viSample pExample).success = true ∧
      (ytSelectAndBuild viSample pExample).download =
        some { url := g.url,
               filename := ytTitle viSample pExample ++
                 (if occursIn "mp4".data g.mimeType.data then ".m4a" else ".webm"),
               saveAs := true } := by
  refine ⟨by decide, ?_⟩
  exact claim_C5.1 viSample pExample (by decide)

/-! ### Scanning lemmas for the YouTube id extraction (C3) -/

/-- No occurrence of `marker` starts at any nonempty suffix of `l`. -/
def noMatchAt (marker l : List Char) : Prop :=
  ∀ t, t <:+ l → t ≠ [] → marker.isPrefixOf t = false

theorem occursIn_eq_false {marker l : List Char} (hm : marker ≠ [])
    (h : noMatchAt marker l) : occursIn marker l = false := by
  induction l with
  | nil =>
    unfold occursIn
    simpa using hm
  | cons c rest ih =>
    unfold occursIn
    rw [h (c :: rest) List.suffix_rfl (by simp)]
    rw [ih (fun t ht htne => h t (ht.trans (List.suffix_cons c rest)) htne)]
    rfl

theorem matchCapture_eq_none {marker l : List Char} (keep : Char → Bool)
    (h : noMatchAt marker l) : matchCapture marker keep l = none := by
  induction l with
  | nil => rfl
  | cons c rest ih =>
    unfold matchCapture
    rw [h (c :: rest) List.suffix_rfl (by simp)]
    simp only [Bool.false_eq_true, if_false]
    exact ih (fun t ht htne => h t (ht.trans (List.suffix_cons c rest)) htne)

theorem suffix_append_cases {t A B : List Char} (h : t <:+ A ++ B) :
    t <:+ B ∨ ∃ s, s <:+ A ∧ s ≠ [] ∧ t = s ++ B := by
  induction A with
  | nil => exact Or.inl (by simpa using h)
  | cons a A' ih =>
    rcases List.suffix_cons_iff.mp h with heq | hsuf
    · exact Or.inr ⟨a :: A', List.suffix_rfl, by simp, heq⟩
    · rcases ih hsuf with h1 | ⟨s, hs1, hs2, hs3⟩
      · exact Or.inl h1
      · exact Or.inr ⟨s, hs1.trans (List.suffix_cons a A'), hs2, hs3⟩

theorem isPrefixOf_append_of_le {marker X Y : List Char} (h : marker.length ≤ X.length) :
    marker.isPrefixOf (X ++ Y) = marker.isPrefixOf X := by
  induction marker generalizing X with
  | nil => simp
  | cons m mr ih =>
    cases X with
    | nil => simp at h
    | cons x xs =>
      rw [List.cons_append, List.isPrefixOf_cons₂, List.isPrefixOf_cons₂]
      rw [ih (by simpa using Nat.le_of_succ_le_succ (by simpa using h))]

theorem isPrefixOf_append_self (l r : List Char) : l.isPrefixOf (l ++ r) = true :=
  List.isPrefixOf_iff_prefix.mpr (List.prefix_append l r)

theorem isPrefixOf_append_weaken {n X : List Char} (h : n.isPrefixOf X = true) (B : List Char) :
    n.isPrefixOf (X ++ B) = true := by
  have h1 : n <+: X := List.isPrefixOf_iff_prefix.mp h
  exact List.isPrefixOf_iff_prefix.mpr (h1.trans (List.prefix_append X B))

theorem isPrefixOf_short_split {s marker B : List Char} (hlen : s.length < marker.length)
    (h : marker.isPrefixOf (s ++ B) = true) :
    s.isPrefixOf marker = true ∧ (marker.drop s.length).isPrefixOf B = true := by
  induction s generalizing marker with
  | nil => exact ⟨by simp, by simpa using h⟩
  | cons x xs ih =>
    cases marker with
    | nil => simp at hlen
    | cons m mr =>
      rw [List.cons_append, List.isPrefixOf_cons₂] at h
      obtain ⟨hmx, hrest⟩ := Bool.and_eq_true_iff.mp h
      obtain ⟨h1, h2⟩ := ih (by simpa using Nat.lt_of_succ_lt_succ (by simpa using hlen)) hrest
      refine ⟨?_, by simpa using h2⟩
      rw [List.isPrefixOf_cons₂]
      rw [show (x == m) = true from by
        have : m = x := by simpa using hmx
        simp [this]]
      rw [h1]
      rfl

theorem mem_of_isPrefixOf {n t : List Char} {c : Char} (h : n.isPrefixOf t = true)
    (hc : c ∈ n) : c ∈ t :=
  (List.isPrefixOf_iff_prefix.mp h).subset hc

/-- No occurrence of `marker` inside `id` when some character of `marker`
never occurs in `id`. -/
theorem noMatchAt_of_missing_char {marker id : List Char} {c : Char}
    (hc : c ∈ marker) (hcid : c ∉ id) : noMatchAt marker id := by
  intro t ht _
  cases h : marker.isPrefixOf t with
  | false => rfl
  | true =>
    exact absurd (ht.subset (mem_of_isPrefixOf h hc)) hcid

/-- Master lemma: `marker` does not occur in `A ++ id` when (a) it matches at
no position of `A` that could hold it entirely, (b) no short suffix of `A` is
a prefix of `marker` (no straddling start), and (c) it cannot occur inside
`id`. -/
theorem noMatchAt_append {marker A id : List Char}
    (hA1 : ∀ s ∈ A.tails, s ≠ [] → marker.length ≤ s.length → marker.isPrefixOf s = false)
    (hA2 : ∀ s ∈ A.tails, s ≠ [] → s.length < marker.length → s.isPrefixOf marker = false)
    (hid : noMatchAt marker id) : noMatchAt marker (A ++ id) := by
  intro t ht htne
  rcases suffix_append_cases ht with hin | ⟨s, hsA, hsne, rfl⟩
  · exact hid t hin htne
  · by_cases hlen : marker.length ≤ s.length
    · rw [isPrefixOf_append_of_le hlen]
      exact hA1 s ((List.mem_tails s A).mpr hsA) hsne hlen
    · cases hcheck : marker.isPrefixOf (s ++ id) with
      | false => rfl
      | true =>
        have hshort := isPrefixOf_short_split (Nat.lt_of_not_le hlen) hcheck
        have := hA2 s ((List.mem_tails s A).mpr hsA) hsne (Nat.lt_of_not_le hlen)
        rw [this] at hshort
        exact absurd hshort.1 (by simp)

theorem occursIn_nil_needle (l : List Char) : occursIn [] l = true := by
  cases l with
  | nil => rfl
  | cons c rest =>
    unfold occursIn
    simp

theorem occursIn_append_left {needle A : List Char} (h : occursIn needle A = true)
    (B : List Char) : occursIn needle (A ++ B) = true := by
  induction A with
  | nil =>
    unfold occursIn at h
    rw [List.isEmpty_iff] at h
    subst h
    exact occursIn_nil_needle B
  | cons a A' ih =>
    unfold occursIn at h
    rcases Bool.or_eq_true_iff.mp h with h1 | h1
    · have hw : needle.isPrefixOf (a :: (A' ++ B)) = true := by
        rw [show a :: (A' ++ B) = (a :: A') ++ B from rfl]
        exact isPrefixOf_append_weaken h1 B
      show (needle.isPrefixOf (a :: (A' ++ B)) || occursIn needle (A' ++ B)) = true
      rw [hw]
      rfl
    · show (needle.isPrefixOf (a :: (A' ++ B)) || occursIn needle (A' ++ B)) = true
      rw [ih h1]
      simp

theorem matchVParam_skip {A B : List Char} (h : ∀ c ∈ A, c ≠ '?' ∧ c ≠ '&') :
    matchVParam (A ++ B) = matchVParam B := by
  induction A with
  | nil => rfl
  | cons a A' ih =>
    have ha := h a (List.mem_cons_self a A')
    show matchVParam (a :: (A' ++ B)) = matchVParam B
    conv_lhs => unfold matchVParam
    rw [show ((a == '?' || a == '&') && ("v=".data.isPrefixOf (A' ++ B))) = false from by
      simp [ha.1, ha.2]]
    simp only [Bool.false_eq_true, if_false]
    exact ih (fun c hc => h c (List.mem_cons_of_mem a hc))

theorem matchVParam_none {l : List Char} (h : ∀ c ∈ l, c ≠ '?' ∧ c ≠ '&') :
    matchVParam l = none := by
  have := matchVParam_skip (B := []) h
  rw [List.append_nil] at this
  rw [this]
  rfl

theorem matchVParam_hit {id : List Char} (hamp : ∀ c ∈ id, c ≠ '&') (hne : id ≠ []) :
    matchVParam ('?' :: 'v' :: '=' :: id) = some id := by
  conv_lhs => unfold matchVParam
  rw [show (('?' == '?' || '?' == '&') && ("v=".data.isPrefixOf ('v' :: '=' :: id))) = true from by
    have : "v=".data.isPrefixOf ('v' :: '=' :: id) = true := by
      rw [show 'v' :: '=' :: id = "v=".data ++ id from rfl]
      exact isPrefixOf_append_self _ _
    simp [this]]
  rw [if_pos rfl]
  have htake : (('v' :: '=' :: id).drop 2).takeWhile (fun d => d != '&') = id := by
    rw [show ('v' :: '=' :: id).drop 2 = id from rfl]
    exact takeWhile_all_eq (fun c hc => by simpa using hamp c hc)
  rw [htake]
  rw [if_neg (by rw [List.isEmpty_iff]; exact hne)]

theorem matchCapture_skip {marker A B : List Char} (keep : Char → Bool)
    (h : ∀ s ∈ A.tails, s ≠ [] → marker.isPrefixOf (s ++ B) = false) :
    matchCapture marker keep (A ++ B) = matchCapture marker keep B := by
  induction A with
  | nil => rfl
  | cons a A' ih =>
    show matchCapture marker keep (a :: (A' ++ B)) = matchCapture marker keep B
    conv_lhs => unfold matchCapture
    rw [show marker.isPrefixOf (a :: (A' ++ B)) = false from by
      rw [show a :: (A' ++ B) = (a :: A') ++ B from rfl]
      exact h (a :: A') ((List.mem_tails _ _).mpr List.suffix_rfl) (by simp)]
    simp only [Bool.false_eq_true, if_false]
    exact ih (fun s hs hsne =>
      h s ((List.mem_tails _ _).mpr (((List.mem_tails _ _).mp hs).trans (List.suffix_cons a A'))) hsne)

theorem matchCapture_hit {marker id : List Char} (keep : Char → Bool)
    (hmne : marker ≠ []) (hcap : id.takeWhile keep ≠ []) :
    matchCapture marker keep (marker ++ id) = some (id.takeWhile keep) := by
  cases marker with
  | nil => exact absurd rfl hmne
  | cons m mr =>
    show matchCapture (m :: mr) keep (m :: (mr ++ id)) = some (id.takeWhile keep)
    conv_lhs => unfold matchCapture
    rw [show (m :: mr).isPrefixOf (m :: (mr ++ id)) = true from by
      rw [show m :: (mr ++ id) = (m :: mr) ++ id from rfl]
      exact isPrefixOf_append_self _ _]
    rw [if_pos rfl]
    rw [show (m :: (mr ++ id)).drop (m :: mr).length = id from by
      rw [show m :: (mr ++ id) = (m :: mr) ++ id from rfl]
      exact List.drop_left _ _]
    rw [if_neg (by rw [List.isEmpty_iff]; exact hcap)]

theorem splitFirst_colon {A B : List Char} (hA : ':' ∉ A) :
    splitFirst "://".data (A ++ ':' :: '/' :: '/' :: B) = some (A, B) := by
  induction A with
  | nil =>
    show splitFirst "://".data (':' :: '/' :: '/' :: B) = some ([], B)
    unfold splitFirst
    rw [show "://".data.isPrefixOf (':' :: '/' :: '/' :: B) = true from by
      rw [show ':' :: '/' :: '/' :: B = "://".data ++ B from rfl]
      exact isPrefixOf_append_self _ _]
    dsimp only
    rw [show (':' :: '/' :: '/' :: B).drop "://".data.length = B from by
      rw [show ':' :: '/' :: '/' :: B = "://".data ++ B from rfl]
      exact List.drop_left _ _]
    rfl
  | cons a A' ih =>
    have ha : a ≠ ':' := fun h => hA (h ▸ List.mem_cons_self a A')
    show splitFirst "://".data (a :: (A' ++ ':' :: '/' :: '/' :: B)) = some (a :: A', B)
    unfold splitFirst
    rw [show "://".data.isPrefixOf (a :: (A' ++ ':' :: '/' :: '/' :: B)) = false from by
      rw [show "://".data = ':' :: "//".data from rfl, List.isPrefixOf_cons₂]
      simp [Ne.symm ha]]
    simp only [Bool.false_eq_true, if_false]
    rw [ih (fun h => hA (List.mem_cons_of_mem a h))]

/-- The URL model on a simple `https://host/<tail>` URL with a clean host. -/
theorem parseUrlRec_https {host tail2 : List Char}
    (hhost : ∀ c ∈ host, (!(c == '/' || c == '?' || c == '#')) = true)
    (hhostColon : ':' ∉ host)
    (hhostAt : afterLastOcc '@' host = host)
    (hhostLower : host.map Char.toLower = host) :
    parseUrlRec ("https".data ++ ':' :: '/' :: '/' :: (host ++ '/' :: tail2)) =
      some { hostname := String.mk host,
             pathname := String.mk ('/' :: tail2.takeWhile (fun c => !(c == '?' || c == '#'))) } := by
  have hauth : (host ++ '/' :: tail2).takeWhile (fun c => !(c == '/' || c == '?' || c == '#')) = host := by
    rw [List.takeWhile_append_of_pos hhost, List.takeWhile_cons, if_neg (by decide), List.append_nil]
  have hdrop : (host ++ '/' :: tail2).dropWhile (fun c => !(c == '/' || c == '?' || c == '#')) = '/' :: tail2 := by
    rw [List.dropWhile_append_of_pos hhost, List.dropWhile_cons, if_neg (by decide)]
  have hcolon : host.takeWhile (fun c => c != ':') = host :=
    takeWhile_all_eq (fun c hc => by
      simp only [bne_iff_ne, ne_eq, decide_eq_true_eq]
      exact fun (h : c = ':') => hhostColon (h ▸ hc))
  have htk : ('/' :: tail2).takeWhile (fun c => !(c == '?' || c == '#')) =
      '/' :: tail2.takeWhile (fun c => !(c == '?' || c == '#')) := by
    rw [List.takeWhile_cons, if_pos (by decide)]
  unfold parseUrlRec
  rw [splitFirst_colon (by decide)]
  dsimp only
  rw [show ("https".data.isEmpty || !("https".data.all Char.isAlpha)) = false from by decide]
  rw [if_neg Bool.false_ne_true]
  rw [hauth, hdrop]
  rw [show ('/' :: tail2).head? = some '/' from rfl]
  rw [if_pos rfl]
  rw [htk, hhostAt, hcolon, hhostLower]

/-! ### The YouTube id alphabet and the four URL shapes (C3) -/

/-- The YouTube video-id alphabet (base64url). -/
def ytIdAlphabet : List Char :=
  "ABCDEFGHIJKLMNOPQRSTUVWXYZabcdefghijklmnopqrstuvwxyz0123456789-_".data

theorem ytId_facts {id : List Char} (hg : ∀ c ∈ id, c ∈ ytIdAlphabet) :
    ∀ c ∈ id, c ≠ '?' ∧ c ≠ '&' ∧ c ≠ '/' ∧ c ≠ '.' ∧ c ≠ '#' := by
  intro c hc
  have hall : ∀ c ∈ ytIdAlphabet, c ≠ '?' ∧ c ≠ '&' ∧ c ≠ '/' ∧ c ≠ '.' ∧ c ≠ '#' := by decide
  exact hall c (hg c hc)

theorem ytId_no_dot {id : List Char} (hg : ∀ c ∈ id, c ∈ ytIdAlphabet) : '.' ∉ id :=
  fun hd => (ytId_facts hg '.' hd).2.2.2.1 rfl

theorem ytId_lower_no_dot {id : List Char} (hg : ∀ c ∈ id, c ∈ ytIdAlphabet) :
    '.' ∉ id.map Char.toLower := by
  intro hd
  obtain ⟨c, hc, hcl⟩ := List.mem_map.mp hd
  have hall : ∀ c ∈ ytIdAlphabet, Char.toLower c ≠ '.' := by decide
  exact hall c (hg c hc) hcl

theorem forall_mem_append {P : Char → Prop} {A B : List Char}
    (hA : ∀ c ∈ A, P c) (hB : ∀ c ∈ B, P c) : ∀ c ∈ A ++ B, P c :=
  fun c hc => (List.mem_append.mp hc).elim (hA c) (hB c)

theorem skip_cond_of_concrete {marker P : List Char} (id : List Char)
    (hconc : ∀ s ∈ P.tails, s ≠ [] → marker.isPrefixOf (s ++ marker) = false) :
    ∀ s ∈ P.tails, s ≠ [] → marker.isPrefixOf (s ++ (marker ++ id)) = false := by
  intro s hs hsne
  rw [← List.append_assoc]
  rw [isPrefixOf_append_of_le (by rw [List.length_append]; exact Nat.le_add_left _ _)]
  exact hconc s hs hsne

theorem strcat_ne_empty {A B : String} (h : A.data ≠ []) : (A ++ B) ≠ "" := by
  intro hc
  have hdata : (A ++ B).data = [] := by rw [hc]
  rw [String.data_append] at hdata
  exact h (List.append_eq_nil.mp hdata).1

/-- The capture class `[^?&]` accepts every id character. -/
theorem ytId_takeWhile_qamp {id : List Char} (hg : ∀ c ∈ id, c ∈ ytIdAlphabet) :
    id.takeWhile (fun c => !(c == '?' || c == '&')) = id :=
  takeWhile_all_eq (fun c hc => by
    have := ytId_facts hg c hc
    simp [this.1, this.2.1])

theorem ytId_takeWhile_qhash {id : List Char} (hg : ∀ c ∈ id, c ∈ ytIdAlphabet) :
    id.takeWhile (fun c => !(c == '?' || c == '#')) = id :=
  takeWhile_all_eq (fun c hc => by
    have := ytId_facts hg c hc
    simp [this.1, this.2.2.2.2])

/-! #### Shape u1: `https://www.youtube.com/watch?v=<id>` -/

theorem mvp_u1 {id : List Char} (hg : ∀ c ∈ id, c ∈ ytIdAlphabet) (hne : id ≠ []) :
    matchVParam ("https://www.youtube.com/watch?v=".data ++ id) = some id := by
  rw [show "https://www.youtube.com/watch?v=".data =
    "https://www.youtube.com/watch".data ++ ['?', 'v', '='] from by decide]
  rw [List.append_assoc]
  rw [matchVParam_skip (by decide)]
  rw [show (['?', 'v', '='] ++ id : List Char) = '?' :: 'v' :: '=' :: id from rfl]
  exact matchVParam_hit (fun c hc => (ytId_facts hg c hc).2.1) hne

theorem parse_u1 {id : List Char} (hg : ∀ c ∈ id, c ∈ ytIdAlphabet) :
    parseUrlRec ("https://www.youtube.com/watch?v=".data ++ id)
      = some { hostname := "www.youtube.com", pathname := "/watch" } := by
  rw [show "https://www.youtube.com/watch?v=".data ++ id =
    "https".data ++ ':' :: '/' :: '/' ::
      ("www.youtube.com".data ++ '/' :: ("watch?v=".data ++ id)) from by
    rw [show "https://www.youtube.com/watch?v=".data =
      "https".data ++ ':' :: '/' :: '/' :: ("www.youtube.com".data ++ '/' :: "watch?v=".data) from by decide]
    simp]
  rw [parseUrlRec_https (by decide) (by decide) (by decide) (by decide)]
  rw [show "watch?v=".data ++ id = "watch".data ++ ('?' :: ("v=".data ++ id)) from by
    rw [show "watch?v=".data = "watch".data ++ '?' :: "v=".data from by decide]
    simp]
  rw [List.takeWhile_append_of_pos (by decide), List.takeWhile_cons, if_neg (by decide),
    List.append_nil]

/-! #### Shape u2: `https://youtu.be/<id>` -/

theorem mvp_u2 {id : List Char} (hg : ∀ c ∈ id, c ∈ ytIdAlphabet) :
    matchVParam ("https://youtu.be/".data ++ id) = none := by
  apply matchVParam_none
  exact forall_mem_append (P := fun c => c ≠ '?' ∧ c ≠ '&') (by decide)
    (fun c hc => ⟨(ytId_facts hg c hc).1, (ytId_facts hg c hc).2.1⟩)

theorem capB_u2 {id : List Char} (hg : ∀ c ∈ id, c ∈ ytIdAlphabet) (hne : id ≠ []) :
    matchCapture "youtu.be/".data (fun c => !(c == '?' || c == '&'))
      ("https://youtu.be/".data ++ id) = some id := by
  rw [show "https://youtu.be/".data ++ id =
    "https://".data ++ ("youtu.be/".data ++ id) from by
    rw [show "https://youtu.be/".data = "https://".data ++ "youtu.be/".data from by decide]
    simp]
  rw [matchCapture_skip _ (skip_cond_of_concrete id (by decide))]
  rw [matchCapture_hit _ (by decide) (by rw [ytId_takeWhile_qamp hg]; exact hne)]
  rw [ytId_takeWhile_qamp hg]

theorem parse_u2 {id : List Char} (hg : ∀ c ∈ id, c ∈ ytIdAlphabet) :
    parseUrlRec ("https://youtu.be/".data ++ id)
      = some { hostname := "youtu.be", pathname := String.mk ('/' :: id) } := by
  rw [show "https://youtu.be/".data ++ id =
    "https".data ++ ':' :: '/' :: '/' :: ("youtu.be".data ++ '/' :: id) from by
    rw [show "https://youtu.be/".data =
      "https".data ++ ':' :: '/' :: '/' :: ("youtu.be".data ++ ['/']) from by decide]
    simp]
  rw [parseUrlRec_https (by decide) (by decide) (by decide) (by decide)]
  rw [ytId_takeWhile_qhash hg]

/-! #### Shape u3: `https://www.youtube.com/embed/<id>` -/

theorem mvp_u3 {id : List Char} (hg : ∀ c ∈ id, c ∈ ytIdAlphabet) :
    matchVParam ("https://www.youtube.com/embed/".data ++ id) = none := by
  apply matchVParam_none
  exact forall_mem_append (P := fun c => c ≠ '?' ∧ c ≠ '&') (by decide)
    (fun c hc => ⟨(ytId_facts hg c hc).1, (ytId_facts hg c hc).2.1⟩)

theorem capB_u3 {id : List Char} (hg : ∀ c ∈ id, c ∈ ytIdAlphabet) :
    matchCapture "youtu.be/".data (fun c => !(c == '?' || c == '&'))
      ("https://www.youtube.com/embed/".data ++ id) = none := by
  apply matchCapture_eq_none
  exact noMatchAt_append (by decide) (by decide)
    (noMatchAt_of_missing_char (c := '.') (by decide) (ytId_no_dot hg))

theorem capE_u3 {id : List Char} (hg : ∀ c ∈ id, c ∈ ytIdAlphabet) (hne : id ≠ []) :
    matchCapture "youtube.com/embed/".data (fun c => !(c == '?' || c == '&'))
      ("https://www.youtube.com/embed/".data ++ id) = some id := by
  rw [show "https://www.youtube.com/embed/".data ++ id =
    "https://www.".data ++ ("youtube.com/embed/".data ++ id) from by
    rw [show "https://www.youtube.com/embed/".data =
      "https://www.".data ++ "youtube.com/embed/".data from by decide]
    simp]
  rw [matchCapture_skip _ (skip_cond_of_concrete id (by decide))]
  rw [matchCapture_hit _ (by decide) (by rw [ytId_takeWhile_qamp hg]; exact hne)]
  rw [ytId_takeWhile_qamp hg]

theorem parse_u3 {id : List Char} (hg : ∀ c ∈ id, c ∈ ytIdAlphabet) :
    parseUrlRec ("https://www.youtube.com/embed/".data ++ id)
      = some { hostname := "www.youtube.com",
               pathname := String.mk ('/' :: ("embed/".data ++ id)) } := by
  rw [show "https://www.youtube.com/embed/".data ++ id =
    "https".data ++ ':' :: '/' :: '/' ::
      ("www.youtube.com".data ++ '/' :: ("embed/".data ++ id)) from by
    rw [show "https://www.youtube.com/embed/".data =
      "https".data ++ ':' :: '/' :: '/' :: ("www.youtube.com".data ++ '/' :: "embed/".data) from by decide]
    simp]
  rw [parseUrlRec_https (by decide) (by decide) (by decide) (by decide)]
  rw [List.takeWhile_append_of_pos (by decide), ytId_takeWhile_qhash hg]

/-! #### Shape u4: `https://www.youtube.com/shorts/<id>` -/

theorem mvp_u4 {id : List Char} (hg : ∀ c ∈ id, c ∈ ytIdAlphabet) :
    matchVParam ("https://www.youtube.com/shorts/".data ++ id) = none := by
  apply matchVParam_none
  exact forall_mem_append (P := fun c => c ≠ '?' ∧ c ≠ '&') (by decide)
    (fun c hc => ⟨(ytId_facts hg c hc).1, (ytId_facts hg c hc).2.1⟩)

theorem capB_u4 {id : List Char} (hg : ∀ c ∈ id, c ∈ ytIdAlphabet) :
    matchCapture "youtu.be/".data (fun c => !(c == '?' || c == '&'))
      ("https://www.youtube.com/shorts/".data ++ id) = none := by
  apply matchCapture_eq_none
  exact noMatchAt_append (by decide) (by decide)
    (noMatchAt_of_missing_char (c := '.') (by decide) (ytId_no_dot hg))

theorem capE_u4 {id : List Char} (hg : ∀ c ∈ id, c ∈ ytIdAlphabet) :
    matchCapture "youtube.com/embed/".data (fun c => !(c == '?' || c == '&'))
      ("https://www.youtube.com/shorts/".data ++ id) = none := by
  apply matchCapture_eq_none
  exact noMatchAt_append (by decide) (by decide)
    (noMatchAt_of_missing_char (c := '.') (by decide) (ytId_no_dot hg))

theorem capS_u4 {id : List Char} (hg : ∀ c ∈ id, c ∈ ytIdAlphabet) (hne : id ≠ []) :
    matchCapture "youtube.com/shorts/".data (fun c => !(c == '?' || c == '&'))
      ("https://www.youtube.com/shorts/".data ++ id) = some id := by
  rw [show "https://www.youtube.com/shorts/".data ++ id =
    "https://www.".data ++ ("youtube.com/shorts/".data ++ id) from by
    rw [show "https://www.youtube.com/shorts/".data =
      "https://www.".data ++ "youtube.com/shorts/".data from by decide]
    simp]
  rw [matchCapture_skip _ (skip_cond_of_concrete id (by decide))]
  rw [matchCapture_hit _ (by decide) (by rw [ytId_takeWhile_qamp hg]; exact hne)]
  rw [ytId_takeWhile_qamp hg]

theorem parse_u4 {id : List Char} (hg : ∀ c ∈ id, c ∈ ytIdAlphabet) :
    parseUrlRec ("https://www.youtube.com/shorts/".data ++ id)
      = some { hostname := "www.youtube.com",
               pathname := String.mk ('/' :: ("shorts/".data ++ id)) } := by
  rw [show "https://www.youtube.com/shorts/".data ++ id =
    "https".data ++ ':' :: '/' :: '/' ::
      ("www.youtube.com".data ++ '/' :: ("shorts/".data ++ id)) from by
    rw [show "https://www.youtube.com/shorts/".data =
      "https".data ++ ':' :: '/' :: '/' :: ("www.youtube.com".data ++ '/' :: "shorts/".data) from by decide]
    simp]
  rw [parseUrlRec_https (by decide) (by decide) (by decide) (by decide)]
  rw [List.takeWhile_append_of_pos (by decide), ytId_takeWhile_qhash hg]

/-- shapes u2: the embed and shorts markers do not occur either. -/
theorem capE_u2 {id : List Char} (hg : ∀ c ∈ id, c ∈ ytIdAlphabet) :
    matchCapture "youtube.com/embed/".data (fun c => !(c == '?' || c == '&'))
      ("https://youtu.be/".data ++ id) = none := by
  apply matchCapture_eq_none
  exact noMatchAt_append (by decide) (by decide)
    (noMatchAt_of_missing_char (c := '.') (by decide) (ytId_no_dot hg))

theorem capS_u3 {id : List Char} (hg : ∀ c ∈ id, c ∈ ytIdAlphabet) :
    matchCapture "youtube.com/shorts/".data (fun c => !(c == '?' || c == '&'))
      ("https://www.youtube.com/embed/".data ++ id) = none := by
  apply matchCapture_eq_none
  exact noMatchAt_append (by decide) (by decide)
    (noMatchAt_of_missing_char (c := '.') (by decide) (ytId_no_dot hg))

/-! #### The id cascade on the four shapes -/

theorem cascade_u1 {idS : String} (hg : ∀ c ∈ idS.data, c ∈ ytIdAlphabet)
    (hne : idS.data ≠ []) :
    ytIdCascade ("https://www.youtube.com/watch?v=" ++ idS) = some idS := by
  unfold ytIdCascade
  rw [String.data_append, mvp_u1 hg hne]

theorem cascade_u2 {idS : String} (hg : ∀ c ∈ idS.data, c ∈ ytIdAlphabet)
    (hne : idS.data ≠ []) :
    ytIdCascade ("https://youtu.be/" ++ idS) = some idS := by
  unfold ytIdCascade
  rw [String.data_append, mvp_u2 hg]
  dsimp only
  rw [capB_u2 hg hne]

theorem cascade_u3 {idS : String} (hg : ∀ c ∈ idS.data, c ∈ ytIdAlphabet)
    (hne : idS.data ≠ []) :
    ytIdCascade ("https://www.youtube.com/embed/" ++ idS) = some idS := by
  unfold ytIdCascade
  rw [String.data_append, mvp_u3 hg]
  dsimp only
  rw [capB_u3 hg]
  dsimp only
  rw [capE_u3 hg hne]

theorem cascade_u4 {idS : String} (hg : ∀ c ∈ idS.data, c ∈ ytIdAlphabet)
    (hne : idS.data ≠ []) :
    ytIdCascade ("https://www.youtube.com/shorts/" ++ idS) = some idS := by
  unfold ytIdCascade
  rw [String.data_append, mvp_u4 hg]
  dsimp only
  rw [capB_u4 hg]
  dsimp only
  rw [capE_u4 hg]
  dsimp only
  rw [capS_u4 hg hne]

/-! #### part_000's collector on the four shapes -/

theorem MD2_vid_u1 {idS : String} (hg : ∀ c ∈ idS.data, c ∈ ytIdAlphabet)
    (hne : idS.data ≠ []) :
    (MD2_DataCollector ("https://www.youtube.com/watch?v=" ++ idS)).videoInfo.map
      (fun vi => vi.id) = some idS := by
  unfold MD2_DataCollector
  rw [if_neg (by simpa using @strcat_ne_empty "https://www.youtube.com/watch?v=" idS (by decide))]
  rw [if_pos (show (occursIn "youtube.com/watch".data
      ("https://www.youtube.com/watch?v=" ++ idS).data ||
      occursIn "youtu.be/".data ("https://www.youtube.com/watch?v=" ++ idS).data) = true from by
    rw [String.data_append,
      occursIn_append_left (show occursIn "youtube.com/watch".data
        "https://www.youtube.com/watch?v=".data = true from by decide) idS.data]
    rfl)]
  rw [String.data_append, mvp_u1 hg hne]
  rfl

theorem MD2_vid_u2 {idS : String} (hg : ∀ c ∈ idS.data, c ∈ ytIdAlphabet)
    (hne : idS.data ≠ []) :
    (MD2_DataCollector ("https://youtu.be/" ++ idS)).videoInfo.map
      (fun vi => vi.id) = some idS := by
  unfold MD2_DataCollector
  rw [if_neg (by simpa using @strcat_ne_empty "https://youtu.be/" idS (by decide))]
  rw [if_pos (show (occursIn "youtube.com/watch".data ("https://youtu.be/" ++ idS).data ||
      occursIn "youtu.be/".data ("https://youtu.be/" ++ idS).data) = true from by
    rw [String.data_append,
      occursIn_append_left (show occursIn "youtu.be/".data
        "https://youtu.be/".data = true from by decide) idS.data]
    rw [Bool.or_true])]
  rw [String.data_append, mvp_u2 hg]
  dsimp only
  rw [capB_u2 hg hne]
  rfl

theorem MD2_vid_u4 {idS : String} (hg : ∀ c ∈ idS.data, c ∈ ytIdAlphabet)
    (hne : idS.data ≠ []) :
    (MD2_DataCollector ("https://www.youtube.com/shorts/" ++ idS)).videoInfo.map
      (fun vi => vi.id) = some idS := by
  have hW4 : occursIn "youtube.com/watch".data
      ("https://www.youtube.com/shorts/".data ++ idS.data) = false :=
    occursIn_eq_false (by decide) (noMatchAt_append (by decide) (by decide)
      (noMatchAt_of_missing_char (c := '.') (by decide) (ytId_no_dot hg)))
  have hB4 : occursIn "youtu.be/".data
      ("https://www.youtube.com/shorts/".data ++ idS.data) = false :=
    occursIn_eq_false (by decide) (noMatchAt_append (by decide) (by decide)
      (noMatchAt_of_missing_char (c := '.') (by decide) (ytId_no_dot hg)))
  unfold MD2_DataCollector
  rw [if_neg (by simpa using @strcat_ne_empty "https://www.youtube.com/shorts/" idS (by decide))]
  rw [String.data_append, hW4, hB4]
  rw [if_neg (by simp)]
  rw [if_pos (show occursIn "youtube.com/shorts/".data
      ("https://www.youtube.com/shorts/".data ++ idS.data) = true from
    occursIn_append_left (by decide) idS.data)]
  rw [capS_u4 hg hne]
  rfl

theorem MD2_vid_u3 {idS : String} (hg : ∀ c ∈ idS.data, c ∈ ytIdAlphabet) :
    (MD2_DataCollector ("https://www.youtube.com/embed/" ++ idS)).videoInfo = none ∧
    (MD2_DataCollector ("https://www.youtube.com/embed/" ++ idS)).site = some "unknown" := by
  have hnomatch : ∀ needle : List Char, needle ≠ [] → '.' ∈ needle →
      (∀ s ∈ "https://www.youtube.com/embed/".data.tails, s ≠ [] →
        needle.length ≤ s.length → needle.isPrefixOf s = false) →
      (∀ s ∈ "https://www.youtube.com/embed/".data.tails, s ≠ [] →
        s.length < needle.length → s.isPrefixOf needle = false) →
      occursIn needle ("https://www.youtube.com/embed/".data ++ idS.data) = false :=
    fun needle h1 h2 h3 h4 =>
      occursIn_eq_false h1 (noMatchAt_append h3 h4
        (noMatchAt_of_missing_char h2 (ytId_no_dot hg)))
  have hW3 := hnomatch "youtube.com/watch".data (by decide) (by decide) (by decide) (by decide)
  have hB3 := hnomatch "youtu.be/".data (by decide) (by decide) (by decide) (by decide)
  have hS3 := hnomatch "youtube.com/shorts/".data (by decide) (by decide) (by decide) (by decide)
  have hnodot : '.' ∉ ("embed/".data ++ idS.data.map Char.toLower) := by
    intro hmem
    rcases List.mem_append.mp hmem with h | h
    · exact absurd h (by decide)
    · exact ytId_lower_no_dot hg h
  have hext3 : getExtensionJs ("https://www.youtube.com/embed/" ++ idS) = "" := by
    unfold getExtensionJs
    rw [String.data_append, parse_u3 hg]
    dsimp only
    rw [List.map_cons, List.map_append]
    rw [show "embed/".data.map Char.toLower = "embed/".data from by decide]
    show (match extAfterLastDot ("embed/".data ++ idS.data.map Char.toLower) with
      | some e => String.mk e
      | none => "") = ""
    rw [extAfterLastDot_eq_none hnodot]
  have hcl3 : classifyUrlJs MD2_audioExts MD2_videoExts MD2_streamExts
      ("https://www.youtube.com/embed/" ++ idS) = none := by
    unfold classifyUrlJs
    rw [hext3]
    decide
  have hdrm3 : MD2_drmSites.find?
      (fun s => occursIn s.data ("https://www.youtube.com/embed/" ++ idS).data) = none := by
    rw [List.find?_eq_none]
    intro x hx
    rw [String.data_append]
    fin_cases hx <;>
      (intro hcontra
       exact absurd hcontra (by
        rw [hnomatch _ (by decide) (by decide) (by decide) (by decide)]
        simp))
  have hcol : MD2_DataCollector ("https://www.youtube.com/embed/" ++ idS) =
      MD2_collectRest ("https://www.youtube.com/embed/" ++ idS) := by
    unfold MD2_DataCollector
    rw [if_neg (by simpa using @strcat_ne_empty "https://www.youtube.com/embed/" idS (by decide))]
    rw [String.data_append, hW3, hB3]
    rw [if_neg (by simp)]
    rw [hS3]
    rw [if_neg Bool.false_ne_true]
  rw [hcol]
  unfold MD2_collectRest
  rw [hcl3]
  rw [if_neg (by simp)]
  rw [hdrm3]
  exact ⟨rfl, rfl⟩

/-- C3 counterexample: for the `/embed/` URL shape, the thumbnail and
YouTube-audio collectors extract the 11-character id `dQw4w9WgXcQ`, but
part_000's collector — whose YouTube branch only knows `watch?v=`,
`youtu.be/` and `/shorts/` — extracts no video id at all, so the components
do not agree on this shape. -/
theorem claim_C3_cx :
    (TD1_DataCollector "https://www.youtube.com/embed/dQw4w9WgXcQ").videoId =
      some "dQw4w9WgXcQ" ∧
    (YTA_DataCollector "https://www.youtube.com/embed/dQw4w9WgXcQ").videoId =
      some "dQw4w9WgXcQ" ∧
    (MD2_DataCollector "https://www.youtube.com/embed/dQw4w9WgXcQ").videoInfo = none ∧
    (MD2_DataCollector "https://www.youtube.com/embed/dQw4w9WgXcQ").site = some "unknown" := by
  decide

/-- C3 (amended): for every 11-character video id over the YouTube id
alphabet, the three components with the four-pattern cascade (the thumbnail
downloader, the YouTube audio downloader, and the DOM thumbnail variant
part_001) extract the identical id from all four URL shapes; part_000
extracts that same id from the `watch?v=`, `youtu.be/` and `/shorts/` shapes
but yields no video id for the `/embed/` shape. -/
theorem claim_C3_amended (idS : String) (hg : ∀ c ∈ idS.data, c ∈ ytIdAlphabet)
    (hlen : idS.data.length = 11) :
    ((TD1_DataCollector ("https://www.youtube.com/watch?v=" ++ idS)).videoId = some idS ∧
     (TD1_DataCollector ("https://youtu.be/" ++ idS)).videoId = some idS ∧
     (TD1_DataCollector ("https://www.youtube.com/embed/" ++ idS)).videoId = some idS ∧
     (TD1_DataCollector ("https://www.youtube.com/shorts/" ++ idS)).videoId = some idS) ∧
    ((YTA_DataCollector ("https://www.youtube.com/watch?v=" ++ idS)).videoId = some idS ∧
     (YTA_DataCollector ("https://youtu.be/" ++ idS)).videoId = some idS ∧
     (YTA_DataCollector ("https://www.youtube.com/embed/" ++ idS)).videoId = some idS ∧
     (YTA_DataCollector ("https://www.youtube.com/shorts/" ++ idS)).videoId = some idS) ∧
    (∀ dom : DomEnv,
      (dom.href = "https://www.youtube.com/watch?v=" ++ idS →
        (TD2_DataCollector dom).videoId = some idS) ∧
      (dom.href = "https://youtu.be/" ++ idS →
        (TD2_DataCollector dom).videoId = some idS) ∧
      (dom.href = "https://www.youtube.com/embed/" ++ idS →
        (TD2_DataCollector dom).videoId = some idS) ∧
      (dom.href = "https://www.youtube.com/shorts/" ++ idS →
        (TD2_DataCollector dom).videoId = some idS)) ∧
    ((MD2_DataCollector ("https://www.youtube.com/watch?v=" ++ idS)).videoInfo.map
        (fun vi => vi.id) = some idS ∧
     (MD2_DataCollector ("https://youtu.be/" ++ idS)).videoInfo.map
        (fun vi => vi.id) = some idS ∧
     (MD2_DataCollector ("https://www.youtube.com/shorts/" ++ idS)).videoInfo.map
        (fun vi => vi.id) = some idS ∧
     (MD2_DataCollector ("https://www.youtube.com/embed/" ++ idS)).videoInfo = none) := by
  have hne : idS.data ≠ [] := by
    intro h
    rw [h] at hlen
    cases hlen
  refine ⟨⟨?_, ?_, ?_, ?_⟩, ⟨?_, ?_, ?_, ?_⟩, ?_,
    MD2_vid_u1 hg hne, MD2_vid_u2 hg hne, MD2_vid_u4 hg hne, (MD2_vid_u3 hg).1⟩
  · unfold TD1_DataCollector
    rw [if_neg (by simpa using @strcat_ne_empty "https://www.youtube.com/watch?v=" idS (by decide))]
    rw [String.data_append, parse_u1 hg]
    dsimp only
    rw [if_pos (by decide)]
    rw [cascade_u1 hg hne]
  · unfold TD1_DataCollector
    rw [if_neg (by simpa using @strcat_ne_empty "https://youtu.be/" idS (by decide))]
    rw [String.data_append, parse_u2 hg]
    dsimp only
    rw [if_pos (by decide)]
    rw [cascade_u2 hg hne]
  · unfold TD1_DataCollector
    rw [if_neg (by simpa using @strcat_ne_empty "https://www.youtube.com/embed/" idS (by decide))]
    rw [String.data_append, parse_u3 hg]
    dsimp only
    rw [if_pos (by decide)]
    rw [cascade_u3 hg hne]
  · unfold TD1_DataCollector
    rw [if_neg (by simpa using @strcat_ne_empty "https://www.youtube.com/shorts/" idS (by decide))]
    rw [String.data_append, parse_u4 hg]
    dsimp only
    rw [if_pos (by decide)]
    rw [cascade_u4 hg hne]
  · unfold YTA_DataCollector
    rw [if_neg (by simpa using @strcat_ne_empty "https://www.youtube.com/watch?v=" idS (by decide))]
    rw [String.data_append, parse_u1 hg]
    dsimp only
    rw [if_neg (by decide)]
    rw [cascade_u1 hg hne]
  · unfold YTA_DataCollector
    rw [if_neg (by simpa using @strcat_ne_empty "https://youtu.be/" idS (by decide))]
    rw [String.data_append, parse_u2 hg]
    dsimp only
    rw [if_neg (by decide)]
    rw [cascade_u2 hg hne]
  · unfold YTA_DataCollector
    rw [if_neg (by simpa using @strcat_ne_empty "https://www.youtube.com/embed/" idS (by decide))]
    rw [String.data_append, parse_u3 hg]
    dsimp only
    rw [if_neg (by decide)]
    rw [cascade_u3 hg hne]
  · unfold YTA_DataCollector
    rw [if_neg (by simpa using @strcat_ne_empty "https://www.youtube.com/shorts/" idS (by decide))]
    rw [String.data_append, parse_u4 hg]
    dsimp only
    rw [if_neg (by decide)]
    rw [cascade_u4 hg hne]
  · intro dom
    refine ⟨?_, ?_, ?_, ?_⟩ <;> intro hdom
    · unfold TD2_DataCollector domHostname
      rw [hdom]
      rw [String.data_append, parse_u1 hg]
      dsimp only
      rw [if_pos (by decide)]
      rw [cascade_u1 hg hne]
    · unfold TD2_DataCollector domHostname
      rw [hdom]
      rw [String.data_append, parse_u2 hg]
      dsimp only
      rw [if_pos (by decide)]
      rw [cascade_u2 hg hne]
    · unfold TD2_DataCollector domHostname
      rw [hdom]
      rw [String.data_append, parse_u3 hg]
      dsimp only
      rw [if_pos (by decide)]
      rw [cascade_u3 hg hne]
    · unfold TD2_DataCollector domHostname
      rw [hdom]
      rw [String.data_append, parse_u4 hg]
      dsimp only
      rw [if_pos (by decide)]
      rw [cascade_u4 hg hne]

theorem claim_C3_amended_witness :
    (∀ c ∈ ("dQw4w9WgXcQ" : String).data, c ∈ ytIdAlphabet) ∧
    ("dQw4w9WgXcQ" : String).data.length = 11 ∧
    (TD1_DataCollector ("https://youtu.be/" ++ "dQw4w9WgXcQ")).videoId = some "dQw4w9WgXcQ" ∧
    (MD2_DataCollector ("https://www.youtube.com/embed/" ++ "dQw4w9WgXcQ")).videoInfo = none := by
  refine ⟨by decide, by decide, ?_, ?_⟩
  · exact (claim_C3_amended "dQw4w9WgXcQ" (by decide) (by decide)).1.2.1
  · exact (claim_C3_amended "dQw4w9WgXcQ" (by decide) (by decide)).2.2.2.2.2.2
